import Mathlib

/-!
# idefix: FIXApp and DataContext

A shallow embedding of `src/FIXApp.cpp` and `src/core/datacontext.cpp`.

* FIX messages are field maps keyed by the field names the source uses
  (`FIELD::Account`, ...), with repeating groups up to the depth the source touches.
* QuickFIX calls that can throw (`getField`, `getGroup`, `IntConvertor::convert`,
  `Dictionary::getString`, `Dictionary::getBool`) return `Except FixError`.
* `Session::sendToTarget(request, sessionID)` is the engine's send primitive; the model
  records each call, in order, in the `sent` component of the state. Console output is dropped.
* QuickFIX declares `Session::sendToTarget` to throw `SessionNotFound` when the engine has no
  session with the given id. `FIXApp.GetTradingStatus`, ... give the state after a command whose
  send calls return; `Engine.GetTradingStatus`, ... run the same statements against an engine
  that answers each call, and give the state together with the exception that ended the command.
* Member variables keep their source names (`_requestID`, `_list_accountID`, ...).
-/

namespace Idefix

/-! ## FIX field maps -/

/-- The FIX fields named in the source. -/
inductive Field where
  | MsgType | TargetSubID | Username | Password
  | Account | CashOutstanding | NoPartyIDs | NoPartySubIDs | PartySubIDType | PartySubID
  | PartyID | PartyIDSource | PartyRole
  | TradSesReqID | TradingSessionID | SubscriptionRequestType | CollInquiryID
  | PosReqID | PosReqType | AccountType | TransactTime | ClearingBusinessDate
  | MDReqID | MarketDepth | NoRelatedSym | Symbol | NoMDEntryTypes | MDEntryType
  | NoMDEntries | MDEntryPx
  | ClOrdID | OrderQty | Side | OrdType | TimeInForce
  | Text
  | OrderID | LastQty | CumQty | ExecType | OrdStatus
  deriving DecidableEq, Repr

/-- Exceptions raised by the QuickFIX calls the source makes. -/
inductive FixError where
  | FieldNotFound (f : Field)
  | FieldConvertError (value : String)
  | ConfigError (key : String)
  | SessionNotFound
  deriving DecidableEq, Repr

deriving instance DecidableEq for Except

/-- Fields of one FIX field map, as (field, value) pairs. -/
abbrev Fields := List (Field × String)

/-- A field map with no field set. -/
def Fields.empty : Fields := []

/-- Translation of `FieldMap::getField(tag)`: throws `FieldNotFound` when the field is not set. -/
def Fields.getField (fm : Fields) (f : Field) : Except FixError String :=
  match fm.lookup f with
  | some v => .ok v
  | none => .error (.FieldNotFound f)

/-- Translation of `FieldMap::isSetField(tag)`. -/
def Fields.isSetField (fm : Fields) (f : Field) : Bool :=
  (fm.lookup f).isSome

/-- Translation of `FieldMap::setField(field)`: overwrites the value of a field that is set,
adds the field otherwise. -/
def Fields.setField (fm : Fields) (f : Field) (v : String) : Fields :=
  if fm.any (fun p => p.1 == f) then
    fm.map (fun p => if p.1 == f then (f, v) else p)
  else
    fm ++ [(f, v)]

/-- An innermost repeating-group instance (e.g. one `NoPartySubIDs` entry). -/
structure SubGroup where
  fields : Fields
  deriving DecidableEq, Repr

/-- A repeating-group instance of a message (e.g. one `NoPartyIDs` entry); `subGroups` holds its
nested group instances, each tagged by its counter field. -/
structure Group where
  fields : Fields
  subGroups : List (Field × SubGroup)
  deriving DecidableEq, Repr

/-- A FIX message: header, body fields and the body's repeating-group instances, each tagged by
its counter field, in the order they were added. -/
structure Message where
  header : Fields
  fields : Fields
  groups : List (Field × Group)
  deriving DecidableEq, Repr

/-- Translation of `message.getField(tag)` on the body. -/
def Message.getField (m : Message) (f : Field) : Except FixError String :=
  m.fields.getField f

/-- Translation of `message.setField(field)` on the body. -/
def Message.setField (m : Message) (f : Field) (v : String) : Message :=
  { m with fields := m.fields.setField f v }

/-- Translation of `message.getGroup(num, group)`: the `num`-th (1-based) group instance of the
counter field `f`; throws `FieldNotFound` when there is none. -/
def Message.getGroup (m : Message) (num : Nat) (f : Field) : Except FixError Group :=
  match (m.groups.filter (fun g => g.1 == f))[num - 1]?, num with
  | _, 0 => .error (.FieldNotFound f)
  | some g, _ => .ok g.2
  | none, _ => .error (.FieldNotFound f)

/-- Translation of `message.addGroup(group)`: appends a copy of the group instance and sets the
counter field to the number of instances. -/
def Message.addGroup (m : Message) (f : Field) (g : Group) : Message :=
  { m with
    groups := m.groups ++ [(f, g)]
    fields := m.fields.setField f (toString ((m.groups.filter (fun x => x.1 == f)).length + 1)) }

/-- Translation of `group.addGroup(sub_group)` on a group instance. -/
def Group.addGroup (g : Group) (f : Field) (sub : SubGroup) : Group :=
  { g with
    subGroups := g.subGroups ++ [(f, sub)]
    fields := g.fields.setField f (toString ((g.subGroups.filter (fun x => x.1 == f)).length + 1)) }

/-- A message as the constructor of a `FIX44` message class leaves it: `MsgType` in the header,
no body field, no group. -/
def Message.new (msgType : String) : Message :=
  { header := [(.MsgType, msgType)], fields := [], groups := [] }

/-- Translation of `group.getGroup(num, sub_group)` on a group instance. -/
def Group.getGroup (g : Group) (num : Nat) (f : Field) : Except FixError SubGroup :=
  match (g.subGroups.filter (fun s => s.1 == f))[num - 1]?, num with
  | _, 0 => .error (.FieldNotFound f)
  | some s, _ => .ok s.2
  | none, _ => .error (.FieldNotFound f)

/-- Value of a string of decimal digits read left to right from `acc`; `none` at a character
that is not a digit. -/
def parseDigits : List Char → Nat → Option Nat
  | [], acc => some acc
  | c :: cs, acc => if c.isDigit then parseDigits cs (acc * 10 + (c.toNat - 48)) else none

/-- Translation of `IntConvertor::convert(const std::string&)`: an optional minus sign and at
least one decimal digit, else `FieldConvertError`. -/
def IntConvertor.convertString (s : String) : Except FixError Int :=
  match s.data with
  | [] => .error (.FieldConvertError s)
  | '-' :: [] => .error (.FieldConvertError s)
  | '-' :: ds =>
    match parseDigits ds 0 with
    | some n => .ok (-(n : Int))
    | none => .error (.FieldConvertError s)
  | ds =>
    match parseDigits ds 0 with
    | some n => .ok (n : Int)
    | none => .error (.FieldConvertError s)

/-- Conversion of an `unsigned int` to the `int` that `IntConvertor::convert(int)` takes. -/
def toSignedInt (n : Nat) : Int :=
  if n % 2 ^ 32 < 2 ^ 31 then (n % 2 ^ 32 : Nat) else ((n % 2 ^ 32 : Nat) : Int) - 2 ^ 32

/-- Translation of `IntConvertor::convert(int)`: the decimal string of the value. -/
def IntConvertor.convert (v : Int) : String :=
  toString v

/-- A `double` as the decimal number `mantissa / 10 ^ exponent` its text denotes; the rounding
to binary floating point is left out. -/
structure Decimal where
  mantissa : Int
  exponent : Nat
  deriving DecidableEq, Repr

/-- The `double` literal `0`. -/
def Decimal.zero : Decimal := { mantissa := 0, exponent := 0 }

/-- Splits decimal text at its first `.`: the characters before it and, when there is one, the
characters after it. -/
def splitAtDot : List Char → List Char × Option (List Char)
  | [] => ([], none)
  | c :: cs =>
    if c == '.' then ([], some cs)
    else ((c :: (splitAtDot cs).1), (splitAtDot cs).2)

/-- Translation of `DoubleConvertor::convert(const std::string&)`: an optional minus sign, digits
with at most one `.`, at least one digit; else `FieldConvertError`. -/
def DoubleConvertor.convert (s : String) : Except FixError Decimal :=
  let negative := match s.data with
    | '-' :: _ => true
    | _ => false
  let body := match s.data with
    | '-' :: rest => rest
    | rest => rest
  let whole := (splitAtDot body).1
  let fraction := ((splitAtDot body).2).getD []
  if (whole ++ fraction).isEmpty then .error (.FieldConvertError s)
  else
    match parseDigits (whole ++ fraction) 0 with
    | some n =>
      .ok { mantissa := if negative then -(n : Int) else (n : Int), exponent := fraction.length }
    | none => .error (.FieldConvertError s)

/-! ## Sessions and settings -/

/-- A QuickFIX `SessionID`; the default-constructed one has every component empty. -/
structure SessionID where
  beginString : String := ""
  senderCompID : String := ""
  targetCompID : String := ""
  sessionQualifier : String := ""
  deriving DecidableEq, Repr

/-- A QuickFIX `Dictionary`: the key/value pairs of one section of the settings file. -/
abbrev Dictionary := List (String × String)

/-- Translation of `Dictionary::has(key)`. -/
def Dictionary.has (d : Dictionary) (key : String) : Bool :=
  (d.lookup key).isSome

/-- Translation of `Dictionary::getString(key)`: throws `ConfigError` when the key is not defined. -/
def Dictionary.getString (d : Dictionary) (key : String) : Except FixError String :=
  match d.lookup key with
  | some v => .ok v
  | none => .error (.ConfigError key)

/-- Translation of `Dictionary::getBool(key)`: `Y` is true, `N` is false; throws `ConfigError`
when the key is not defined or its value is not a FIX boolean. -/
def Dictionary.getBool (d : Dictionary) (key : String) : Except FixError Bool :=
  match d.lookup key with
  | some v => if v == "Y" then .ok true else if v == "N" then .ok false else .error (.ConfigError key)
  | none => .error (.ConfigError key)

/-- What the application reads from outside itself: `_settings->get()` (the default section of
the settings file), `_initiator->getSessionSettings(sessionID)` and the clock that
`TransactTime()` reads. -/
structure Env where
  defaults : Dictionary
  sessionSettings : SessionID → Dictionary
  now : String

/-! ## FIXApp state -/

/-- The member variables of `FIXApp` that the modelled functions touch, and the log of calls of
`Session::sendToTarget`. `_requestID` is an `unsigned int`. -/
structure FIXApp where
  _requestID : Nat
  _list_accountID : List String
  _market_sessionID : SessionID
  _order_sessionID : SessionID
  sent : List (Message × SessionID)
  deriving DecidableEq, Repr

/-- Translation of the constructor `FIXApp::FIXApp()`: `_requestID = 1`; the account list is
empty and both session ids are default-constructed. -/
def FIXApp.new : FIXApp :=
  { _requestID := 1, _list_accountID := [], _market_sessionID := {}, _order_sessionID := {},
    sent := [] }

/-! ## RecordAccount -/

/-- The `for(int i = 0; i < size; i++)` loop of `FIXApp::RecordAccount`; `size` was read before
the loop, the first argument counts the iterations left (`size - i`). `at(i)` is always in
range since the vector never shrinks; the `none` branch stands for its `out_of_range`. -/
def RecordAccount.loop (accountID : String) (size : Nat) : Nat → Nat → List String → List String
  | 0, _, l => l
  | n + 1, i, l =>
    match l[i]? with
    | none => l
    | some a =>
      if a == accountID then l
      else RecordAccount.loop accountID size n (i + 1)
        (if i == size - 1 then l ++ [accountID] else l)

/-- Translation of `FIXApp::RecordAccount` on the account vector. -/
def RecordAccount.run (l : List String) (accountID : String) : List String :=
  let size := l.length
  if size == 0 then l ++ [accountID]
  else RecordAccount.loop accountID size size 0 l

/-- Translation of `FIXApp::RecordAccount(accountID)`. -/
def FIXApp.RecordAccount (s : FIXApp) (accountID : String) : FIXApp :=
  { s with _list_accountID := RecordAccount.run s._list_accountID accountID }

/-- The part of `FIXApp::onMessage(const FIX44::CollateralReport&)` before `RecordAccount`: the
fields and groups it reads (to print them); gives the account id, or the exception of the first
read that fails. -/
def collateralReportAccount (cr : Message) : Except FixError String := do
  let accountID ← cr.getField .Account
  let _balance ← cr.getField .CashOutstanding
  let group ← cr.getGroup 1 .NoPartyIDs
  let number_subID ← IntConvertor.convertString (← group.fields.getField .NoPartySubIDs)
  (List.range number_subID.toNat).forM (fun u => do
    let sub_group ← group.getGroup (u + 1) .NoPartySubIDs
    let _sub_type ← sub_group.fields.getField .PartySubIDType
    let _sub_value ← sub_group.fields.getField .PartySubID
    pure ())
  pure accountID

/-- Translation of `FIXApp::onMessage(const FIX44::CollateralReport&, const SessionID&)`: when
every read succeeds the handler ends with `RecordAccount(accountID)`; an exception leaves the
state as it was (nothing was written before it). -/
def FIXApp.onMessageCollateralReport (s : FIXApp) (cr : Message) : FIXApp :=
  match collateralReportAccount cr with
  | .ok accountID => s.RecordAccount accountID
  | .error _ => s

/-- A collateral report as FXCM sends it for `accountID`: account, balance and one party group
with one sub id. -/
def collateralReportFor (accountID : String) : Message :=
  { header := [(.MsgType, "BA")],
    fields := [(.Account, accountID), (.CashOutstanding, "1000.00")],
    groups := [(.NoPartyIDs,
      { fields := [(.PartyID, "FXCM ID"), (.NoPartySubIDs, "1")],
        subGroups := [(.NoPartySubIDs,
          { fields := [(.PartySubIDType, "2"), (.PartySubID, accountID)] })] })] }

/-- The distinct elements of a list in order of first occurrence. -/
def firstOccurrences : List String → List String
  | [] => []
  | x :: xs => x :: (firstOccurrences xs).filter (fun y => y != x)

/-! ## NextRequestID -/

/-- Translation of `FIXApp::NextRequestID()`: the returned string and the state after the call.
`_requestID++` is the increment of an `unsigned int`. -/
def FIXApp.NextRequestID (s : FIXApp) : String × FIXApp :=
  let s1 := if s._requestID == 65535 then { s with _requestID := 1 } else s
  let s2 := { s1 with _requestID := (s1._requestID + 1) % 2 ^ 32 }
  (IntConvertor.convert (toSignedInt s2._requestID), s2)

/-- The state after `n` further calls of `NextRequestID`. -/
def FIXApp.afterCalls (s : FIXApp) : Nat → FIXApp
  | 0 => s
  | n + 1 => (s.afterCalls n).NextRequestID.2

/-- Value of a decimal digit character. -/
def digitValue (c : Char) : Nat := c.toNat - 48

/-- Value of a string of decimal digits. -/
def decodeDigits (l : List Char) : Nat := l.foldl (fun a c => a * 10 + digitValue c) 0

/-! ## Session roles -/

/-- Translation of `FIXApp::IsMarketDataSession(session_ID)`:
`pSettings->has("MarketDataSession") && pSettings->getBool("MarketDataSession")`, the right
operand evaluated only when the left one is true. -/
def IsMarketDataSession (env : Env) (session_ID : SessionID) : Except FixError Bool :=
  let pSettings := env.sessionSettings session_ID
  if pSettings.has "MarketDataSession" then pSettings.getBool "MarketDataSession" else .ok false

/-- Translation of `FIXApp::IsOrderSession(session_ID)`. -/
def IsOrderSession (env : Env) (session_ID : SessionID) : Except FixError Bool :=
  let pSettings := env.sessionSettings session_ID
  if pSettings.has "OrderSession" then pSettings.getBool "OrderSession" else .ok false

/-! ## Commands -/

/-- Translation of a call `Session::sendToTarget(request, sessionID)`: the request is handed to
the engine, addressed to `sessionID`. This is the state after the call; whether the call returns
or throws is the engine's answer, `Engine.sendToTarget`. -/
def FIXApp.sendToTarget (s : FIXApp) (request : Message) (sessionID : SessionID) : FIXApp :=
  { s with sent := s.sent ++ [(request, sessionID)] }

/-- The `TradingSessionStatusRequest` message `FIXApp::GetTradingStatus` builds
(`SubscriptionRequestType_SNAPSHOT` is `'0'`). -/
def tradingSessionStatusRequest (tradSesReqID : String) : Message :=
  (((Message.new "g").setField .TradSesReqID tradSesReqID).setField .TradingSessionID
    "FXCM").setField .SubscriptionRequestType "0"

/-- Translation of `FIXApp::GetTradingStatus()`. -/
def FIXApp.GetTradingStatus (s : FIXApp) : FIXApp :=
  let r := s.NextRequestID
  r.2.sendToTarget (tradingSessionStatusRequest r.1) r.2._order_sessionID

/-- The `CollateralInquiry` message `FIXApp::GetAccounts` builds. -/
def collateralInquiry (collInquiryID : String) : Message :=
  (((Message.new "BB").setField .CollInquiryID collInquiryID).setField .TradingSessionID
    "FXCM").setField .SubscriptionRequestType "0"

/-- Translation of `FIXApp::GetAccounts()`. -/
def FIXApp.GetAccounts (s : FIXApp) : FIXApp :=
  let r := s.NextRequestID
  r.2.sendToTarget (collateralInquiry r.1) r.2._order_sessionID

/-- The `RequestForPositions` message one iteration of `FIXApp::GetPositions` builds
(`PartySubIDType_SECURITIES_ACCOUNT_NUMBER` is `10`). -/
def positionsRequest (now : String) (posReqID accountID : String) : Message :=
  let request := ((((((((Message.new "AN").setField .PosReqID posReqID).setField .PosReqType
    "0").setField .Account accountID).setField .SubscriptionRequestType "0").setField .AccountType
    "6").setField .TransactTime now).setField .ClearingBusinessDate "").setField .TradingSessionID
    "FXCM"
  let request := request.setField .NoPartyIDs "1"
  let parties_group : Group :=
    { fields := (((Fields.empty.setField .PartyID "FXCM ID").setField .PartyIDSource
        "D").setField .PartyRole "3").setField .NoPartySubIDs "1",
      subGroups := [] }
  let sub_parties : SubGroup :=
    { fields := (Fields.empty.setField .PartySubIDType "10").setField .PartySubID accountID }
  let parties_group := parties_group.addGroup .NoPartySubIDs sub_parties
  request.addGroup .NoPartyIDs parties_group

/-- One iteration of the loop of `FIXApp::GetPositions`, for the account `accountID`. -/
def FIXApp.GetPositions.step (env : Env) (st : FIXApp) (accountID : String) : FIXApp :=
  let r := st.NextRequestID
  r.2.sendToTarget (positionsRequest env.now r.1 accountID) r.2._order_sessionID

/-- Translation of `FIXApp::GetPositions()`: one iteration per element of `_list_accountID`, in
index order (the vector is not written during the loop). -/
def FIXApp.GetPositions (env : Env) (s : FIXApp) : FIXApp :=
  s._list_accountID.foldl (FIXApp.GetPositions.step env) s

/-- The request `FIXApp::SubscribeMarketData` builds, statement by statement
(`SubscriptionRequestType_SNAPSHOT_PLUS_UPDATES` is `'1'`; the entry types `MDEntryType_BID`,
`_OFFER`, `_TRADING_SESSION_HIGH_PRICE`, `_TRADING_SESSION_LOW_PRICE` are `'0'`, `'1'`, `'7'`,
`'8'`). -/
def subscribeMarketDataRequest : Message :=
  let request_ID := "EUR_USD_Request_"
  let request := Message.new "V"
  let request := request.setField .MDReqID request_ID
  let request := request.setField .SubscriptionRequestType "1"
  let request := request.setField .MarketDepth "0"
  let request := request.setField .NoRelatedSym "1"
  let symbols_group : Group := { fields := Fields.empty, subGroups := [] }
  let symbols_group := { symbols_group with fields := symbols_group.fields.setField .Symbol "EUR/USD" }
  let request := request.addGroup .NoRelatedSym symbols_group
  let entry_types : Group := { fields := Fields.empty, subGroups := [] }
  let entry_types := { entry_types with fields := entry_types.fields.setField .MDEntryType "0" }
  let request := request.addGroup .NoMDEntryTypes entry_types
  let entry_types := { entry_types with fields := entry_types.fields.setField .MDEntryType "1" }
  let request := request.addGroup .NoMDEntryTypes entry_types
  let entry_types := { entry_types with fields := entry_types.fields.setField .MDEntryType "7" }
  let request := request.addGroup .NoMDEntryTypes entry_types
  let entry_types := { entry_types with fields := entry_types.fields.setField .MDEntryType "8" }
  let request := request.addGroup .NoMDEntryTypes entry_types
  request

/-- The request `FIXApp::UnsubscribeMarketData` builds, statement by statement
(`SubscriptionRequestType_DISABLE_PREVIOUS_SNAPSHOT_PLUS_UPDATE_REQUEST` is `'2'`). -/
def unsubscribeMarketDataRequest : Message :=
  let request_ID := "EUR_USD_Request_"
  let request := Message.new "V"
  let request := request.setField .MDReqID request_ID
  let request := request.setField .SubscriptionRequestType "2"
  let request := request.setField .MarketDepth "0"
  let request := request.setField .NoRelatedSym "1"
  let symbols_group : Group := { fields := Fields.empty, subGroups := [] }
  let symbols_group := { symbols_group with fields := symbols_group.fields.setField .Symbol "EUR/USD" }
  let request := request.addGroup .NoRelatedSym symbols_group
  let entry_types : Group := { fields := Fields.empty, subGroups := [] }
  let entry_types := { entry_types with fields := entry_types.fields.setField .MDEntryType "0" }
  let request := request.addGroup .NoMDEntryTypes entry_types
  let entry_types := { entry_types with fields := entry_types.fields.setField .MDEntryType "1" }
  let request := request.addGroup .NoMDEntryTypes entry_types
  let entry_types := { entry_types with fields := entry_types.fields.setField .MDEntryType "7" }
  let request := request.addGroup .NoMDEntryTypes entry_types
  let entry_types := { entry_types with fields := entry_types.fields.setField .MDEntryType "8" }
  let request := request.addGroup .NoMDEntryTypes entry_types
  request

/-- The common shape of the two market-data requests, for the given
`SubscriptionRequestType`. -/
def marketDataRequest (subscriptionRequestType : String) : Message :=
  let request_ID := "EUR_USD_Request_"
  let request := ((((Message.new "V").setField .MDReqID request_ID).setField
    .SubscriptionRequestType subscriptionRequestType).setField .MarketDepth "0").setField
    .NoRelatedSym "1"
  let symbols_group : Group := { fields := Fields.empty.setField .Symbol "EUR/USD", subGroups := [] }
  let request := request.addGroup .NoRelatedSym symbols_group
  let entry_types : Group := { fields := Fields.empty.setField .MDEntryType "0", subGroups := [] }
  let request := request.addGroup .NoMDEntryTypes entry_types
  let entry_types := { entry_types with fields := entry_types.fields.setField .MDEntryType "1" }
  let request := request.addGroup .NoMDEntryTypes entry_types
  let entry_types := { entry_types with fields := entry_types.fields.setField .MDEntryType "7" }
  let request := request.addGroup .NoMDEntryTypes entry_types
  let entry_types := { entry_types with fields := entry_types.fields.setField .MDEntryType "8" }
  request.addGroup .NoMDEntryTypes entry_types

/-- The `MDEntryType` of each `NoMDEntryTypes` entry of a request, in the order the entries were
added. -/
def mdEntryTypes (request : Message) : List (Except FixError String) :=
  (request.groups.filter (fun g => g.1 == Field.NoMDEntryTypes)).map
    (fun g => g.2.fields.getField .MDEntryType)

/-- Translation of `FIXApp::SubscribeMarketData()`. -/
def FIXApp.SubscribeMarketData (s : FIXApp) : FIXApp :=
  s.sendToTarget subscribeMarketDataRequest s._market_sessionID

/-- Translation of `FIXApp::UnsubscribeMarketData()`. -/
def FIXApp.UnsubscribeMarketData (s : FIXApp) : FIXApp :=
  s.sendToTarget unsubscribeMarketDataRequest s._market_sessionID

/-- The `NewOrderSingle` message one iteration of `FIXApp::MarketOrder` builds. -/
def newOrderSingle (now : String) (clOrdID accountID : String) : Message :=
  (((((((((Message.new "D").setField .ClOrdID clOrdID).setField .Account accountID).setField
    .Symbol "EUR/USD").setField .TradingSessionID "FXCM").setField .TransactTime now).setField
    .OrderQty "10000").setField .Side "1").setField .OrdType "1").setField .TimeInForce "1"

/-- One iteration of the loop of `FIXApp::MarketOrder`, for the account `accountID`. -/
def FIXApp.MarketOrder.step (env : Env) (st : FIXApp) (accountID : String) : FIXApp :=
  let r := st.NextRequestID
  r.2.sendToTarget (newOrderSingle env.now r.1 accountID) r.2._order_sessionID

/-- Translation of `FIXApp::MarketOrder()`: one order per element of `_list_accountID`. -/
def FIXApp.MarketOrder (env : Env) (s : FIXApp) : FIXApp :=
  s._list_accountID.foldl (FIXApp.MarketOrder.step env) s

/-- The sessions to which the requests handed to `Session::sendToTarget` between the state
`before` and the later state `after` are addressed, in order. -/
def targetsSince (before after : FIXApp) : List SessionID :=
  (after.sent.drop before.sent.length).map Prod.snd

/-- The requests handed to `Session::sendToTarget` between `before` and `after`, in order. -/
def requestsSince (before after : FIXApp) : List Message :=
  (after.sent.drop before.sent.length).map Prod.fst

/-! ## The engine's answer to a send call -/

/-- The QuickFIX engine as `Session::sendToTarget` consults it: `Session::lookupSession`, which
tells whether the engine has a session with the given id. -/
structure Engine where
  lookupSession : SessionID → Bool

/-- Translation of a call `Session::sendToTarget(request, sessionID)` together with the exception
QuickFIX declares for it: the request is handed to the engine (the call is recorded), and the
call throws `SessionNotFound` when `lookupSession` finds no session with that id. For a session
the engine has, the call returns (its boolean result is ignored by every caller). -/
def Engine.sendToTarget (engine : Engine) (s : FIXApp) (request : Message)
    (sessionID : SessionID) : FIXApp × Option FixError :=
  (s.sendToTarget request sessionID,
    if engine.lookupSession sessionID then none else some .SessionNotFound)

/-- Translation of `FIXApp::GetTradingStatus()` against the engine: the state after the call and
the exception that ended it, if any. -/
def Engine.GetTradingStatus (engine : Engine) (s : FIXApp) : FIXApp × Option FixError :=
  let r := s.NextRequestID
  engine.sendToTarget r.2 (tradingSessionStatusRequest r.1) r.2._order_sessionID

/-- Translation of `FIXApp::GetAccounts()` against the engine. -/
def Engine.GetAccounts (engine : Engine) (s : FIXApp) : FIXApp × Option FixError :=
  let r := s.NextRequestID
  engine.sendToTarget r.2 (collateralInquiry r.1) r.2._order_sessionID

/-- The loop of `FIXApp::GetPositions` against the engine, over the accounts still to visit: an
exception thrown by a send call leaves the loop and the function. -/
def Engine.GetPositions.loop (engine : Engine) (env : Env) :
    List String → FIXApp → FIXApp × Option FixError
  | [], st => (st, none)
  | accountID :: rest, st =>
    let r := st.NextRequestID
    match engine.sendToTarget r.2 (positionsRequest env.now r.1 accountID) r.2._order_sessionID with
    | (st1, some e) => (st1, some e)
    | (st1, none) => Engine.GetPositions.loop engine env rest st1

/-- Translation of `FIXApp::GetPositions()` against the engine. -/
def Engine.GetPositions (engine : Engine) (env : Env) (s : FIXApp) : FIXApp × Option FixError :=
  Engine.GetPositions.loop engine env s._list_accountID s

/-- The loop of `FIXApp::MarketOrder` against the engine, over the accounts still to visit. -/
def Engine.MarketOrder.loop (engine : Engine) (env : Env) :
    List String → FIXApp → FIXApp × Option FixError
  | [], st => (st, none)
  | accountID :: rest, st =>
    let r := st.NextRequestID
    match engine.sendToTarget r.2 (newOrderSingle env.now r.1 accountID) r.2._order_sessionID with
    | (st1, some e) => (st1, some e)
    | (st1, none) => Engine.MarketOrder.loop engine env rest st1

/-- Translation of `FIXApp::MarketOrder()` against the engine. -/
def Engine.MarketOrder (engine : Engine) (env : Env) (s : FIXApp) : FIXApp × Option FixError :=
  Engine.MarketOrder.loop engine env s._list_accountID s

/-- Translation of `FIXApp::SubscribeMarketData()` against the engine. -/
def Engine.SubscribeMarketData (engine : Engine) (s : FIXApp) : FIXApp × Option FixError :=
  engine.sendToTarget s subscribeMarketDataRequest s._market_sessionID

/-- Translation of `FIXApp::UnsubscribeMarketData()` against the engine. -/
def Engine.UnsubscribeMarketData (engine : Engine) (s : FIXApp) : FIXApp × Option FixError :=
  engine.sendToTarget s unsubscribeMarketDataRequest s._market_sessionID

/-! ## Session callbacks -/

/-- Translation of `FIXApp::onLogon(sessionID)`: the state after the callback and the exception
that ended it, if any. An exception keeps what was written before it: one thrown by
`IsMarketDataSession` ends the callback before anything is written, one thrown by the send call
of `GetTradingStatus()` ends it after `_market_sessionID` is stored and before
`_order_sessionID` is. -/
def FIXApp.onLogon (engine : Engine) (env : Env) (s : FIXApp) (sessionID : SessionID) :
    FIXApp × Option FixError :=
  match IsMarketDataSession env sessionID with
  | .error e => (s, some e)
  | .ok isMarket =>
    let r := if isMarket then engine.GetTradingStatus { s with _market_sessionID := sessionID }
      else (s, none)
    match r.2 with
    | some e => (r.1, some e)
    | none =>
      match IsOrderSession env sessionID with
      | .error e => (r.1, some e)
      | .ok isOrder => (if isOrder then { r.1 with _order_sessionID := sessionID } else r.1, none)

/-- Translation of `FIXApp::onLogout(session_ID)`: both branches only print. -/
def FIXApp.onLogout (env : Env) (s : FIXApp) (session_ID : SessionID) : FIXApp × Option FixError :=
  match IsMarketDataSession env session_ID with
  | .error e => (s, some e)
  | .ok _ =>
    match IsOrderSession env session_ID with
    | .error e => (s, some e)
    | .ok _ => (s, none)

/-- The last session of `logons` that satisfies `role`, if any. -/
def lastLogon (role : SessionID → Bool) (logons : List SessionID) : Option SessionID :=
  (logons.filter role).getLast?

/-- The configuration marks the session market-data: `IsMarketDataSession` answers true. -/
def marksMarketData (env : Env) (sessionID : SessionID) : Bool :=
  decide (IsMarketDataSession env sessionID = .ok true)

/-- The configuration marks the session order: `IsOrderSession` answers true. -/
def marksOrder (env : Env) (sessionID : SessionID) : Bool :=
  decide (IsOrderSession env sessionID = .ok true)

/-- The commands of `FIXApp`. -/
inductive Command where
  | GetTradingStatus
  | GetAccounts
  | GetPositions
  | MarketOrder
  | SubscribeMarketData
  | UnsubscribeMarketData
  deriving DecidableEq, Repr

/-- One command run against the engine. -/
def Engine.command (engine : Engine) (env : Env) (s : FIXApp) : Command → FIXApp × Option FixError
  | .GetTradingStatus => engine.GetTradingStatus s
  | .GetAccounts => engine.GetAccounts s
  | .GetPositions => engine.GetPositions env s
  | .MarketOrder => engine.MarketOrder env s
  | .SubscribeMarketData => engine.SubscribeMarketData s
  | .UnsubscribeMarketData => engine.UnsubscribeMarketData s

/-- What happens to a `FIXApp` object: the engine calls `onLogon` or `onLogout`, it delivers a
collateral report, or a command is called. -/
inductive AppEvent where
  | logon (sessionID : SessionID)
  | logout (sessionID : SessionID)
  | collateralReport (cr : Message)
  | command (c : Command)

/-- One event: the state after it and the exception that ended the call, if any. -/
def Engine.step (engine : Engine) (env : Env) (s : FIXApp) : AppEvent → FIXApp × Option FixError
  | .logon sessionID => s.onLogon engine env sessionID
  | .logout sessionID => s.onLogout env sessionID
  | .collateralReport cr =>
    (s.onMessageCollateralReport cr,
      match collateralReportAccount cr with
      | .ok _ => none
      | .error e => some e)
  | .command c => engine.command env s c

/-- The state after the events, in order, starting from `s`; an exception ends the call that
raised it and the next event finds the state that call left. -/
def Engine.run (engine : Engine) (env : Env) (s : FIXApp) (events : List AppEvent) : FIXApp :=
  events.foldl (fun st event => (engine.step env st event).1) s

/-- The sessions that log on in the events, in order. -/
def logonsOf (events : List AppEvent) : List SessionID :=
  events.filterMap (fun event =>
    match event with
    | .logon sessionID => some sessionID
    | _ => none)

/-- Translation of `FIXApp::toApp(message, session_ID)`: the message after the callback and the
exception that ended it, if any. -/
def toApp (env : Env) (message : Message) : Message × Option FixError :=
  match env.defaults.getString "TargetSubID" with
  | .error e => (message, some e)
  | .ok sub_ID => ({ message with header := message.header.setField .TargetSubID sub_ID }, none)

/-- Translation of `FIXApp::toAdmin(message, session_ID)`: the message after the callback and
the exception that ended it, if any. -/
def toAdmin (env : Env) (message : Message) : Message × Option FixError :=
  match message.header.getField .MsgType with
  | .error e => (message, some e)
  | .ok msg_type =>
    if msg_type == "A" then
      match env.defaults.getString "Username" with
      | .error e => (message, some e)
      | .ok str_username =>
        match env.defaults.getString "Password" with
        | .error e => (message, some e)
        | .ok str_password =>
          let message := (message.setField .Username str_username).setField .Password str_password
          match env.defaults.getString "TargetSubID" with
          | .error e => (message, some e)
          | .ok sub_ID =>
            ({ message with header := message.header.setField .TargetSubID sub_ID }, none)
    else
      match env.defaults.getString "TargetSubID" with
      | .error e => (message, some e)
      | .ok sub_ID => ({ message with header := message.header.setField .TargetSubID sub_ID }, none)

/-- A configuration with two sessions as FXCM sets them up: the session qualified `market` has
`MarketDataSession=Y`, the one qualified `order` has `OrderSession=Y`. -/
def exampleEnv : Env :=
  { defaults := [("Username", "u"), ("Password", "p"), ("TargetSubID", "U100D1")],
    sessionSettings := fun sessionID =>
      if sessionID.sessionQualifier == "market" then [("MarketDataSession", "Y")]
      else if sessionID.sessionQualifier == "order" then [("OrderSession", "Y")]
      else [],
    now := "20180101-00:00:00" }

/-- The market-data session of `exampleEnv`. -/
def marketSession : SessionID :=
  { beginString := "FIX.4.4", senderCompID := "client", targetCompID := "FXCM",
    sessionQualifier := "market" }

/-- The order session of `exampleEnv`. -/
def orderSession : SessionID :=
  { beginString := "FIX.4.4", senderCompID := "client", targetCompID := "FXCM",
    sessionQualifier := "order" }

/-- A session of `exampleEnv` with neither role. -/
def otherSession : SessionID :=
  { beginString := "FIX.4.4", senderCompID := "client", targetCompID := "FXCM",
    sessionQualifier := "other" }

/-- A session that holds both roles in `dualRoleEnv`. -/
def dualSession : SessionID :=
  { beginString := "FIX.4.4", senderCompID := "client", targetCompID := "FXCM",
    sessionQualifier := "both" }

/-- The market-data session logs on and collateral reports for the accounts `A` and `B` arrive;
no order session logs on. -/
def eventsWithoutOrderLogon : List AppEvent :=
  [.logon marketSession, .collateralReport (collateralReportFor "A"),
    .collateralReport (collateralReportFor "B")]

/-- An engine that has the four example sessions and no other. -/
def exampleEngine : Engine :=
  { lookupSession := fun sessionID =>
      sessionID == marketSession || sessionID == orderSession || sessionID == otherSession
        || sessionID == dualSession }

/-! ## Inbound execution reports and market-data snapshots -/

/-- The fields `FIXApp::onMessage(const FIX44::ExecutionReport&)` reads, in the order it prints
them; the exception of the first `getField` that fails otherwise. -/
def executionReportFields (er : Message) : Except FixError (List String) := do
  let clOrdID ← er.getField .ClOrdID
  let account ← er.getField .Account
  let orderID ← er.getField .OrderID
  let lastQty ← er.getField .LastQty
  let cumQty ← er.getField .CumQty
  let execType ← er.getField .ExecType
  let ordStatus ← er.getField .OrdStatus
  pure [clOrdID, account, orderID, lastQty, cumQty, execType, ordStatus]

/-- Translation of `FIXApp::onMessage(const FIX44::ExecutionReport&, const SessionID&)`: the
handler prints the fields and writes no member; the state after it and the exception that ended
it, if any. -/
def FIXApp.onMessageExecutionReport (s : FIXApp) (er : Message) : FIXApp × Option FixError :=
  match executionReportFields er with
  | .ok _ => (s, none)
  | .error e => (s, some e)

/-- The body of the loop of `FIXApp::onMessage(const FIX44::MarketDataSnapshotFullRefresh&)`
for the index `i`: `prices` is `(bid_price, ask_price)` before the iteration. -/
def marketDataSnapshotStep (mds : Message) (prices : Decimal × Decimal) (i : Nat) :
    Except FixError (Decimal × Decimal) := do
  let group ← mds.getGroup i .NoMDEntries
  let entry_type ← group.fields.getField .MDEntryType
  if entry_type == "0" then do
    let px ← group.fields.getField .MDEntryPx
    let bid_price ← DoubleConvertor.convert px
    pure (bid_price, prices.2)
  else if entry_type == "1" then do
    let px ← group.fields.getField .MDEntryPx
    let ask_price ← DoubleConvertor.convert px
    pure (prices.1, ask_price)
  else
    pure prices

/-- Translation of `FIXApp::onMessage(const FIX44::MarketDataSnapshotFullRefresh&, const
SessionID&)`: the symbol, bid and ask the handler prints. The loop is
`for(int i = 1; i < entry_count; i++)`, so `i` takes the values `1 .. entry_count - 1`. -/
def onMessageMarketDataSnapshotFullRefresh (mds : Message) :
    Except FixError (String × Decimal × Decimal) := do
  let symbol ← mds.getField .Symbol
  let count ← mds.getField .NoMDEntries
  let entry_count ← IntConvertor.convertString count
  let prices ← (List.range' 1 (entry_count - 1).toNat).foldlM (marketDataSnapshotStep mds)
    (Decimal.zero, Decimal.zero)
  pure (symbol, prices.1, prices.2)

/-- A market-data snapshot for `symbol` with the given entries, each an `MDEntryType` and an
`MDEntryPx`; `NoMDEntries` is the number of entries. -/
def marketDataSnapshot (symbol : String) (entries : List (String × String)) : Message :=
  { header := [(.MsgType, "W")],
    fields := [(.Symbol, symbol), (.NoMDEntries, toString entries.length)],
    groups := entries.map (fun e =>
      (Field.NoMDEntries,
        ({ fields := [(.MDEntryType, e.1), (.MDEntryPx, e.2)], subGroups := [] } : Group))) }

/-- What the claim about the snapshot handler asks for: the price of the last entry of type
`entryType` among all the entries, `0` when there is none (written from the claim, to be
compared with the handler). -/
def lastPriceOfType (entryType : String) (entries : List (String × String)) : Decimal :=
  match (entries.filter (fun e => e.1 == entryType)).getLast? with
  | some e =>
    match DoubleConvertor.convert e.2 with
    | .ok px => px
    | .error _ => Decimal.zero
  | none => Decimal.zero

/-! ## Outstanding requests

The source keeps no record of the requests that await a response. To state properties about
them, a run of the correlator is followed from outside: each call of `NextRequestID` adds the
returned identifier, with the number of the call, to the outstanding list; a response removes
the oldest outstanding entry that has its identifier. -/

/-- One step of a run: a call of `NextRequestID`, or the arrival of the response to `id`. -/
inductive CorrelatorEvent where
  | request
  | response (id : String)
  deriving DecidableEq, Repr

/-- A run followed from outside: the application state, the number of `NextRequestID` calls made
and the outstanding identifiers with the number of the call that issued each. -/
structure CorrelatorRun where
  app : FIXApp
  calls : Nat
  outstanding : List (String × Nat)
  deriving DecidableEq, Repr

/-- The run of a fresh application. -/
def CorrelatorRun.new : CorrelatorRun :=
  { app := FIXApp.new, calls := 0, outstanding := [] }

/-- Removes the oldest outstanding entry whose identifier is `id`. -/
def removeOutstanding (id : String) : List (String × Nat) → List (String × Nat)
  | [] => []
  | p :: rest => if p.1 == id then rest else p :: removeOutstanding id rest

/-- Effect of one event on a run. -/
def CorrelatorRun.step (r : CorrelatorRun) : CorrelatorEvent → CorrelatorRun
  | .request =>
    { app := r.app.NextRequestID.2, calls := r.calls + 1,
      outstanding := r.outstanding ++ [(r.app.NextRequestID.1, r.calls + 1)] }
  | .response id => { r with outstanding := removeOutstanding id r.outstanding }

/-- The run after a sequence of events from a fresh application. -/
def CorrelatorRun.after (events : List CorrelatorEvent) : CorrelatorRun :=
  events.foldl CorrelatorRun.step CorrelatorRun.new

/-! ## DataContext: instruments -/

/-- Modelled from the spec: the `ExchangeTick` structure is not among the sources. A tick names
its symbol (`tick.symbol`) and carries the bid and ask of the moment. -/
structure ExchangeTick where
  symbol : String
  bid : Decimal := Decimal.zero
  ask : Decimal := Decimal.zero
  deriving DecidableEq, Repr

/-- Modelled from the spec: `core/instrument.h` is not among the sources. An instrument has a
symbol (`getSymbol()`), a subscribed volume (`getVolume()`) and the ticks added to it
(`addTick`); `Instrument(symbol)` sets the symbol only. -/
structure Instrument where
  symbol : String
  volume : Nat := 0
  ticks : List ExchangeTick := []
  deriving DecidableEq, Repr

/-- Modelled from the spec: `Instrument::addTick(tick)` is not among the sources; it adds the
tick to the instrument and leaves the symbol as it is. -/
def Instrument.addTick (instrument : Instrument) (tick : ExchangeTick) : Instrument :=
  { instrument with ticks := instrument.ticks ++ [tick] }

/-- Modelled from the spec: `enums::OrderAction` is not among the sources. -/
inductive OrderAction where
  | Buy
  | Sell
  deriving DecidableEq, Repr

/-- Modelled from the spec: the order states of the spec, section 4.5. -/
inductive OrderStatus where
  | New
  | PartiallyFilled
  | Filled
  | Cancelled
  | Rejected
  deriving DecidableEq, Repr

/-- Modelled from the spec: `core/order.h` is not among the sources. An order has a client
reference id, a broker order id, a symbol, a side, a quantity and a status. -/
structure Order where
  ref_id : String
  order_id : String
  symbol : String
  action : OrderAction
  qty : Decimal
  status : OrderStatus := OrderStatus.New
  deriving DecidableEq, Repr

/-- A call made on the network adapter. -/
inductive NetworkCall where
  | connect
  | disconnect
  | subscribeMarketData (symbol : String)
  | unsubscribeMarketData (symbol : String)
  deriving DecidableEq, Repr

/-- Modelled from the spec: the `NetworkAdapter` class is not among the sources. The adapter is
the transport the context talks to; the model records the calls made on it, in order. -/
structure NetworkAdapter where
  calls : List NetworkCall := []
  deriving DecidableEq, Repr

/-- A signal the context emits to its consumers. -/
inductive Signal where
  | onReady
  | onConnected
  | onDisconnected
  | onTick (instrument : Instrument)
  deriving DecidableEq, Repr

/-- The members of `DataContext` the modelled functions touch. The list holds the instruments
that the `shared_ptr`s of `m_instrument_list` point to (no null pointer); `m_network_ptr` is
`none` for a null pointer; `emitted` is the log of the signals emitted, in order. -/
structure DataContext where
  m_instrument_list : List Instrument := []
  m_exchange_settings : List (String × String) := []
  m_is_connected : Bool := false
  m_order_list : List Order := []
  m_network_ptr : Option NetworkAdapter := none
  emitted : List Signal := []
  deriving DecidableEq, Repr

/-- Translation of the constructor `DataContext::DataContext`: nothing registered, not connected. -/
def DataContext.new : DataContext := {}

/-- Translation of `DataContext::addInstrument(std::shared_ptr<Instrument>)`. -/
def DataContext.addInstrument (ctx : DataContext) (instrument : Instrument) : DataContext :=
  match ctx.m_instrument_list.find? (fun lh => lh.symbol == instrument.symbol) with
  | some _ => ctx
  | none => { ctx with m_instrument_list := ctx.m_instrument_list ++ [instrument] }

/-- Translation of the overload `DataContext::addInstrument(const std::string& symbol)`. -/
def DataContext.addInstrumentBySymbol (ctx : DataContext) (symbol : String) : DataContext :=
  ctx.addInstrument { symbol := symbol }

/-- Translation of `DataContext::slotExchangeInstrumentList(instruments)`. -/
def DataContext.slotExchangeInstrumentList (ctx : DataContext) (instruments : List Instrument) :
    DataContext :=
  instruments.foldl DataContext.addInstrument ctx

/-- Translation of `DataContext::getInstrument(symbol)`: `none` is the `nullptr` result. -/
def DataContext.getInstrument (ctx : DataContext) (symbol : String) : Option Instrument :=
  ctx.m_instrument_list.find? (fun lh => lh.symbol == symbol)

/-- A call on the network adapter, when there is one (`if ( m_network_ptr )`). -/
def DataContext.callNetwork (ctx : DataContext) (call : NetworkCall) : DataContext :=
  match ctx.m_network_ptr with
  | some adapter =>
    { ctx with m_network_ptr := some { adapter with calls := adapter.calls ++ [call] } }
  | none => ctx

/-- Translation of `DataContext::subscribe(symbol)`. -/
def DataContext.subscribe (ctx : DataContext) (symbol : String) : DataContext :=
  ctx.callNetwork (.subscribeMarketData symbol)

/-- Translation of `DataContext::unsubscribe(symbol)`. -/
def DataContext.unsubscribe (ctx : DataContext) (symbol : String) : DataContext :=
  ctx.callNetwork (.unsubscribeMarketData symbol)

/-- Translation of `DataContext::createMarketOrder(instrument, action, qty)`: the body is
`return nullptr;`. `none` is a null pointer, for the argument and for the result. -/
def DataContext.createMarketOrder (_ctx : DataContext) (_instrument : Option Instrument)
    (_action : OrderAction) (_qty : Decimal) : Option Order :=
  none

/-- Translation of the overload `DataContext::createMarketOrder(instrument, ref_id, action,
qty)`: the body is `return nullptr;`. -/
def DataContext.createMarketOrderWithRefId (_ctx : DataContext) (_instrument : Option Instrument)
    (_ref_id : String) (_action : OrderAction) (_qty : Decimal) : Option Order :=
  none

/-- Translation of `DataContext::getActiveOrders()`. -/
def DataContext.getActiveOrders (ctx : DataContext) : List Order :=
  ctx.m_order_list

/-- Translation of `DataContext::slotExchangeLogout(session_name)`: both branches only log. -/
def DataContext.slotExchangeLogout (ctx : DataContext) (_session_name : String) : DataContext :=
  ctx

/-- Applies `f` to the first element of the list that satisfies `p`. -/
def updateFirst {α : Type} (p : α → Bool) (f : α → α) : List α → List α
  | [] => []
  | x :: xs => if p x then f x :: xs else x :: updateFirst p f xs

/-- Translation of `DataContext::slotExchangeTick(tick)`. The pointer `getInstrument` returns is
the first list entry with the symbol, so `instrument->addTick(tick)` writes that entry; `onTick`
is emitted with it. -/
def DataContext.slotExchangeTick (ctx : DataContext) (tick : ExchangeTick) : DataContext :=
  match ctx.getInstrument tick.symbol with
  | none => ctx
  | some instrument =>
    { ctx with
      m_instrument_list :=
        updateFirst (fun lh => lh.symbol == tick.symbol) (fun lh => lh.addTick tick)
          ctx.m_instrument_list
      emitted := ctx.emitted ++ [.onTick (instrument.addTick tick)] }

/-- Translation of `m_exchange_settings.emplace(key, value)` on a map with unique keys: the pair
is stored when the map has no entry for the key and dropped otherwise. -/
def emplace (m : List (String × String)) (key value : String) : List (String × String) :=
  match m.lookup key with
  | some _ => m
  | none => m ++ [(key, value)]

/-- Translation of `DataContext::slotExchangeSettings(settings)`: one `emplace` per entry of
`settings`, in iteration order. -/
def DataContext.slotExchangeSettings (ctx : DataContext) (settings : List (String × String)) :
    DataContext :=
  { ctx with
    m_exchange_settings :=
      settings.foldl (fun m setting => emplace m setting.1 setting.2) ctx.m_exchange_settings }

/-- Translation of `DataContext::slotExchangeCollateralSettings(map)`. -/
def DataContext.slotExchangeCollateralSettings (ctx : DataContext)
    (map : List (String × String)) : DataContext :=
  { ctx with
    m_exchange_settings :=
      map.foldl (fun m setting => emplace m setting.1 setting.2) ctx.m_exchange_settings }

/-- An event that writes the exchange settings, with the entries it brings. -/
inductive SettingsEvent where
  | settings (entries : List (String × String))
  | collateralSettings (entries : List (String × String))
  deriving DecidableEq, Repr

/-- The entries a settings event brings. -/
def SettingsEvent.entries : SettingsEvent → List (String × String)
  | .settings entries => entries
  | .collateralSettings entries => entries

/-- Effect of one settings event on the context. -/
def DataContext.onSettingsEvent (ctx : DataContext) : SettingsEvent → DataContext
  | .settings entries => ctx.slotExchangeSettings entries
  | .collateralSettings entries => ctx.slotExchangeCollateralSettings entries

/-- The identifier the `k`-th call of `NextRequestID` returns on a fresh `FIXApp` (`k ≥ 1`). -/
def requestIDOfCall (k : Nat) : String :=
  (FIXApp.new.afterCalls (k - 1)).NextRequestID.1

/-- The operations that write the instrument list. -/
inductive InstrumentOp where
  | addInstrument (instrument : Instrument)
  | addInstrumentBySymbol (symbol : String)
  | instrumentList (instruments : List Instrument)
  deriving DecidableEq, Repr

/-- Effect of one operation on the context. -/
def DataContext.apply (ctx : DataContext) : InstrumentOp → DataContext
  | .addInstrument instrument => ctx.addInstrument instrument
  | .addInstrumentBySymbol symbol => ctx.addInstrumentBySymbol symbol
  | .instrumentList instruments => ctx.slotExchangeInstrumentList instruments


/-! # Theorems -/

/-! ## Lemmas: RecordAccount -/

theorem RecordAccount.loop_eq (accountID : String) (l : List String) :
    ∀ (n i : Nat), i + n + 1 = l.length →
      RecordAccount.loop accountID l.length (n + 1) i l =
        if accountID ∈ l.drop i then l else l ++ [accountID] := by
  intro n
  induction n with
  | zero =>
    intro i hi
    have hlt : i < l.length := by omega
    have hlast : i = l.length - 1 := by omega
    have hdrop : l.drop i = [l[i]] := by
      rw [List.drop_eq_getElem_cons hlt, List.drop_of_length_le (by omega)]
    rw [hdrop]
    simp only [RecordAccount.loop, List.getElem?_eq_getElem hlt, List.mem_singleton]
    by_cases h : l[i] = accountID
    · simp [h]
    · have h' : ¬ accountID = l[i] := fun e => h e.symm
      simp [h, h', ← hlast]
  | succ n ih =>
    intro i hi
    have hlt : i < l.length := by omega
    have hne : ¬ i = l.length - 1 := by omega
    have hdrop : l.drop i = l[i] :: l.drop (i + 1) := List.drop_eq_getElem_cons hlt
    rw [hdrop]
    rw [RecordAccount.loop]
    simp only [List.getElem?_eq_getElem hlt, List.mem_cons]
    by_cases h : l[i] = accountID
    · simp [h]
    · have h' : ¬ accountID = l[i] := fun e => h e.symm
      simp only [beq_iff_eq, h, hne, if_false, h', false_or]
      exact ih (i + 1) (by omega)

/-- The call `RecordAccount` appends the id when it is not in the vector and changes nothing otherwise. -/
theorem RecordAccount.run_eq (l : List String) (accountID : String) :
    RecordAccount.run l accountID = if accountID ∈ l then l else l ++ [accountID] := by
  unfold RecordAccount.run
  cases hl : l with
  | nil => simp
  | cons a t =>
    have hlen : (a :: t).length = t.length + 1 := rfl
    have h := RecordAccount.loop_eq accountID (a :: t) t.length 0 (by simp)
    simp only [List.drop_zero] at h
    simp only [hlen, Nat.add_one_ne_zero, beq_iff_eq, if_false] at h ⊢
    exact h

theorem firstOccurrences_mem (ids : List String) (a : String) :
    a ∈ firstOccurrences ids ↔ a ∈ ids := by
  induction ids with
  | nil => simp [firstOccurrences]
  | cons x xs ih =>
    simp only [firstOccurrences, List.mem_cons, List.mem_filter, ih, bne_iff_ne, ne_eq]
    by_cases h : a = x <;> simp [h]

theorem firstOccurrences_nodup (ids : List String) : (firstOccurrences ids).Nodup := by
  induction ids with
  | nil => simp [firstOccurrences]
  | cons x xs ih =>
    simp only [firstOccurrences, List.nodup_cons, List.mem_filter, bne_iff_ne, ne_eq,
      not_true_eq_false, and_false, not_false_eq_true, true_and]
    exact ih.filter _

theorem foldl_RecordAccount_eq (ids : List String) :
    ∀ acc : List String, ids.foldl RecordAccount.run acc =
      acc ++ (firstOccurrences ids).filter (fun y => decide (y ∉ acc)) := by
  induction ids with
  | nil => intro acc; simp [firstOccurrences]
  | cons x xs ih =>
    intro acc
    rw [List.foldl_cons, ih, RecordAccount.run_eq]
    by_cases hx : x ∈ acc
    · simp only [hx, if_true, firstOccurrences, List.filter_cons, not_true_eq_false,
        decide_False, Bool.false_eq_true, if_false, List.filter_filter]
      congr 1
      apply List.filter_congr
      intro y _
      by_cases hy : y ∈ acc
      · simp [hy]
      · have : y ≠ x := fun e => hy (e ▸ hx)
        simp [hy, this]
    · simp only [hx, if_false, firstOccurrences, List.filter_cons, not_false_eq_true,
        decide_True, if_true, List.filter_filter, List.append_assoc, List.singleton_append]
      congr 2
      apply List.filter_congr
      intro y _
      by_cases hy : y ∈ acc <;> by_cases hyx : y = x <;> simp [hy, hyx]

theorem foldl_RecordAccount_nil (ids : List String) :
    ids.foldl RecordAccount.run [] = firstOccurrences ids := by
  rw [foldl_RecordAccount_eq]
  simp

theorem foldl_onMessageCollateralReport (reports : List Message) :
    ∀ s : FIXApp, (reports.foldl FIXApp.onMessageCollateralReport s)._list_accountID =
      (reports.filterMap (fun cr => (collateralReportAccount cr).toOption)).foldl
        RecordAccount.run s._list_accountID := by
  induction reports with
  | nil => intro s; rfl
  | cons cr rest ih =>
    intro s
    rw [List.foldl_cons, ih]
    unfold FIXApp.onMessageCollateralReport
    cases h : collateralReportAccount cr with
    | error e => simp [List.filterMap_cons, h, Except.toOption]
    | ok a => simp [List.filterMap_cons, h, Except.toOption, FIXApp.RecordAccount]

theorem collateralReportAccount_field (cr : Message) (a : String)
    (h : collateralReportAccount cr = .ok a) : cr.getField .Account = .ok a := by
  unfold collateralReportAccount at h
  cases hacc : cr.getField .Account with
  | error e => simp [hacc, bind, Except.bind] at h
  | ok b =>
    simp only [hacc, bind, Except.bind] at h
    split at h
    · cases h
    · split at h
      · cases h
      · split at h
        · cases h
        · split at h
          · cases h
          · split at h
            · cases h
            · simp only [pure, Except.pure, Except.ok.injEq] at h
              rw [h]

theorem filterMap_collateralReportAccount (reports : List Message) (ids : List String)
    (h : List.Forall₂ (fun cr a => collateralReportAccount cr = .ok a) reports ids) :
    reports.filterMap (fun cr => (collateralReportAccount cr).toOption) = ids := by
  induction h with
  | nil => rfl
  | cons hhead _ ih =>
    rw [List.filterMap_cons, hhead, ih]
    rfl

/-! ## C1, C2 -/

/-- C1: starting from a fresh `FIXApp` (empty account list), after handling any sequence of
collateral reports, each of which ends by calling `RecordAccount` with the report's account id,
the account list is the list of the distinct account ids of the sequence in order of first
occurrence, with no id twice. More generally the list is built from the reports whose handling
reaches `RecordAccount` (a report with a missing field records nothing), and the id recorded
for a report is its `Account` field. -/
theorem C1_account_list_first_occurrences (reports : List Message) :
    (∀ ids : List String,
        List.Forall₂ (fun cr a => collateralReportAccount cr = .ok a) reports ids →
        (reports.foldl FIXApp.onMessageCollateralReport FIXApp.new)._list_accountID =
          firstOccurrences ids)
    ∧ (reports.foldl FIXApp.onMessageCollateralReport FIXApp.new)._list_accountID =
        firstOccurrences (reports.filterMap (fun cr => (collateralReportAccount cr).toOption))
    ∧ (reports.foldl FIXApp.onMessageCollateralReport FIXApp.new)._list_accountID.Nodup
    ∧ (∀ a : String, a ∈ (reports.foldl FIXApp.onMessageCollateralReport FIXApp.new)._list_accountID ↔
        ∃ cr ∈ reports, collateralReportAccount cr = .ok a)
    ∧ (∀ cr ∈ reports, ∀ a : String, collateralReportAccount cr = .ok a →
        cr.getField .Account = .ok a) := by
  have hlist : (reports.foldl FIXApp.onMessageCollateralReport FIXApp.new)._list_accountID =
      firstOccurrences (reports.filterMap (fun cr => (collateralReportAccount cr).toOption)) := by
    rw [foldl_onMessageCollateralReport]
    exact foldl_RecordAccount_nil _
  refine ⟨?_, hlist, ?_, ?_, ?_⟩
  · intro ids h
    rw [hlist, filterMap_collateralReportAccount reports ids h]
  · rw [hlist]
    exact firstOccurrences_nodup _
  · intro a
    rw [hlist, firstOccurrences_mem, List.mem_filterMap]
    constructor
    · rintro ⟨cr, hcr, h⟩
      refine ⟨cr, hcr, ?_⟩
      cases hc : collateralReportAccount cr with
      | error e => simp [hc, Except.toOption] at h
      | ok b =>
        simp only [hc, Except.toOption, Option.some.injEq] at h
        rw [h]
    · rintro ⟨cr, hcr, h⟩
      exact ⟨cr, hcr, by simp [h, Except.toOption]⟩
  · intro cr _ a h
    exact collateralReportAccount_field cr a h

/-- Witness of C1: the collateral reports for A, B, A each reach `RecordAccount`, and the
account list after them is `[A, B]`. -/
theorem C1_account_list_first_occurrences_witness :
    List.Forall₂ (fun cr a => collateralReportAccount cr = .ok a)
      [collateralReportFor "A", collateralReportFor "B", collateralReportFor "A"] ["A", "B", "A"]
    ∧ ([collateralReportFor "A", collateralReportFor "B", collateralReportFor "A"].foldl
        FIXApp.onMessageCollateralReport FIXApp.new)._list_accountID = ["A", "B"] :=
  ⟨.cons (by decide) (.cons (by decide) (.cons (by decide) .nil)),
   ((C1_account_list_first_occurrences
      [collateralReportFor "A", collateralReportFor "B", collateralReportFor "A"]).1
      ["A", "B", "A"] (.cons (by decide) (.cons (by decide) (.cons (by decide) .nil)))).trans
    (by decide)⟩

theorem foldl_FIXApp_RecordAccount (ids : List String) :
    ∀ s : FIXApp, (ids.foldl FIXApp.RecordAccount s)._list_accountID =
      ids.foldl RecordAccount.run s._list_accountID := by
  induction ids with
  | nil => intro s; rfl
  | cons x xs ih => intro s; rw [List.foldl_cons, ih]; rfl

/-- C2: `RecordAccount` is idempotent: calling it twice with one id gives the state one call
gives; a call with an id already in the list leaves the state unchanged; and from every list
reachable from the fresh (empty) one by `RecordAccount` calls, calling `RecordAccount("A")`
twice leaves exactly one entry "A". -/
theorem C2_RecordAccount_idempotent (s : FIXApp) (accountID : String) :
    (s.RecordAccount accountID).RecordAccount accountID = s.RecordAccount accountID
    ∧ (accountID ∈ s._list_accountID → s.RecordAccount accountID = s)
    ∧ (∀ ids : List String,
        (((ids.foldl FIXApp.RecordAccount FIXApp.new).RecordAccount "A").RecordAccount
          "A")._list_accountID.count "A" = 1) := by
  refine ⟨?_, ?_, ?_⟩
  · simp only [FIXApp.RecordAccount, RecordAccount.run_eq]
    by_cases h : accountID ∈ s._list_accountID <;> simp [h]
  · intro h
    simp [FIXApp.RecordAccount, RecordAccount.run_eq, h]
  · intro ids
    have hl : (ids.foldl FIXApp.RecordAccount FIXApp.new)._list_accountID =
        firstOccurrences ids := by
      rw [foldl_FIXApp_RecordAccount]
      exact foldl_RecordAccount_nil ids
    have hnd := firstOccurrences_nodup ids
    simp only [FIXApp.RecordAccount, RecordAccount.run_eq, hl]
    by_cases h : "A" ∈ firstOccurrences ids
    · simp only [h, if_true]
      exact List.count_eq_one_of_mem hnd h
    · simp only [h, if_false, List.mem_append, List.mem_singleton, or_true, if_true]
      rw [List.count_append, List.count_eq_zero_of_not_mem h]
      simp

/-- Witness of C2 on the list `["A"]`: `"A"` is present and the call changes nothing. -/
theorem C2_RecordAccount_idempotent_witness :
    "A" ∈ (FIXApp.new.RecordAccount "A")._list_accountID
    ∧ (FIXApp.new.RecordAccount "A").RecordAccount "A" = FIXApp.new.RecordAccount "A" :=
  ⟨by decide,
   (C2_RecordAccount_idempotent (FIXApp.new.RecordAccount "A") "A").2.1 (by decide)⟩

/-! ## Lemmas: decimal strings -/

theorem digitValue_digitChar (d : Nat) (h : d < 10) : digitValue (Nat.digitChar d) = d := by
  interval_cases d <;> decide

theorem digitChar_ne_minus (d : Nat) (h : d < 10) : Nat.digitChar d ≠ '-' := by
  interval_cases d <;> decide

theorem foldl_toDigitsCore (fuel : Nat) : ∀ (n : Nat) (ds : List Char), n < fuel →
    List.foldl (fun a c => a * 10 + digitValue c) 0 (Nat.toDigitsCore 10 fuel n ds) =
      List.foldl (fun a c => a * 10 + digitValue c) n ds := by
  induction fuel with
  | zero => intro n ds h; omega
  | succ fuel ih =>
    intro n ds h
    simp only [Nat.toDigitsCore]
    have hd : digitValue (Nat.digitChar (n % 10)) = n % 10 :=
      digitValue_digitChar _ (Nat.mod_lt _ (by decide))
    split
    · rename_i h0
      have hn : n % 10 = n := by omega
      simp only [List.foldl_cons, hd, Nat.zero_mul, Nat.zero_add]
      rw [hn]
    · rename_i h0
      rw [ih (n / 10) _ (by omega)]
      simp only [List.foldl_cons, hd]
      congr 1
      omega

theorem toDigitsCore_ne_minus (fuel : Nat) : ∀ (n : Nat) (ds : List Char),
    (∀ c ∈ ds, c ≠ '-') → ∀ c ∈ Nat.toDigitsCore 10 fuel n ds, c ≠ '-' := by
  induction fuel with
  | zero => intro n ds h; simpa [Nat.toDigitsCore] using h
  | succ fuel ih =>
    intro n ds h
    have hd : Nat.digitChar (n % 10) ≠ '-' := digitChar_ne_minus _ (Nat.mod_lt _ (by decide))
    have h' : ∀ c ∈ Nat.digitChar (n % 10) :: ds, c ≠ '-' := by
      intro c hc
      rcases List.mem_cons.1 hc with rfl | hc
      · exact hd
      · exact h c hc
    simp only [Nat.toDigitsCore]
    split
    · exact h'
    · exact ih _ _ h'

theorem decodeDigits_repr (n : Nat) : decodeDigits (Nat.repr n).data = n := by
  simp only [Nat.repr, Nat.toDigits, List.asString, decodeDigits]
  rw [foldl_toDigitsCore _ _ _ (Nat.lt_succ_self n)]
  rfl

theorem Nat_repr_injective {a b : Nat} (h : Nat.repr a = Nat.repr b) : a = b := by
  have := congrArg (fun s => decodeDigits s.data) h
  simpa [decodeDigits_repr] using this

theorem Int_toString_injective {a b : Int} (h : toString a = toString b) : a = b := by
  have hpos : ∀ (m k : Nat), toString (Int.ofNat m) ≠ toString (Int.negSucc k) := by
    intro m k e
    have e' : (Nat.repr m).data = '-' :: (Nat.repr (k + 1)).data := by
      have := congrArg String.data e
      simpa [toString, instToStringInt, String.data_append] using this
    have hm : '-' ∈ Nat.toDigitsCore 10 (m + 1) m [] := by
      have : (Nat.repr m).data = Nat.toDigitsCore 10 (m + 1) m [] := rfl
      rw [← this, e']
      exact List.mem_cons_self _ _
    exact toDigitsCore_ne_minus _ _ _ (by simp) _ hm rfl
  cases a with
  | ofNat m =>
    cases b with
    | ofNat k =>
      have : Nat.repr m = Nat.repr k := h
      rw [Nat_repr_injective this]
    | negSucc k => exact absurd h (hpos m k)
  | negSucc m =>
    cases b with
    | ofNat k => exact absurd h.symm (hpos k m)
    | negSucc k =>
      have e : (Nat.repr (m + 1)).data = (Nat.repr (k + 1)).data := by
        have := congrArg String.data h
        simpa [toString, instToStringInt, String.data_append] using this
      have : Nat.repr (m + 1) = Nat.repr (k + 1) := String.ext e
      have := Nat_repr_injective this
      have : m = k := by omega
      rw [this]


theorem toSignedInt_injective {a b : Nat} (ha : a < 2 ^ 32) (hb : b < 2 ^ 32)
    (h : toSignedInt a = toSignedInt b) : a = b := by
  unfold toSignedInt at h
  rw [Nat.mod_eq_of_lt ha, Nat.mod_eq_of_lt hb] at h
  split_ifs at h <;> omega

theorem convert_toSignedInt_injective {a b : Nat} (ha : a < 2 ^ 32) (hb : b < 2 ^ 32)
    (h : IntConvertor.convert (toSignedInt a) = IntConvertor.convert (toSignedInt b)) : a = b :=
  toSignedInt_injective ha hb (Int_toString_injective h)

/-! ## Lemmas: NextRequestID -/

theorem NextRequestID_requestID (s : FIXApp) :
    s.NextRequestID.2._requestID =
      if s._requestID = 65535 then 2 else (s._requestID + 1) % 2 ^ 32 := by
  unfold FIXApp.NextRequestID
  by_cases h : s._requestID = 65535 <;> simp [h]

theorem NextRequestID_fst (s : FIXApp) :
    s.NextRequestID.1 = IntConvertor.convert (toSignedInt s.NextRequestID.2._requestID) := rfl

theorem NextRequestID_lt (s : FIXApp) : s.NextRequestID.2._requestID < 2 ^ 32 := by
  rw [NextRequestID_requestID]
  split_ifs
  · norm_num
  · exact Nat.mod_lt _ (by norm_num)

theorem NextRequestID_frame (s : FIXApp) :
    s.NextRequestID.2 = { s with _requestID := s.NextRequestID.2._requestID } := by
  unfold FIXApp.NextRequestID
  by_cases h : s._requestID = 65535 <;> simp [h]

theorem afterCalls_new (n : Nat) (h : n ≤ 65534) :
    FIXApp.new.afterCalls n = { FIXApp.new with _requestID := n + 1 } := by
  induction n with
  | zero => rfl
  | succ n ih =>
    have ih' := ih (by omega)
    rw [FIXApp.afterCalls, NextRequestID_frame, NextRequestID_requestID, ih']
    have h1 : ¬ (n + 1 = 65535) := by omega
    simp [h1]
    omega

theorem afterCalls_requestID (n : Nat) :
    (FIXApp.new.afterCalls n)._requestID = if n = 0 then 1 else (n - 1) % 65534 + 2 := by
  induction n with
  | zero => rfl
  | succ n ih =>
    rw [FIXApp.afterCalls, NextRequestID_requestID, ih]
    by_cases h0 : n = 0
    · subst h0
      decide
    · simp only [h0, if_false, Nat.add_one_ne_zero, Nat.add_sub_cancel]
      have hlt : (n - 1) % 65534 < 65534 := Nat.mod_lt _ (by norm_num)
      by_cases h1 : (n - 1) % 65534 + 2 = 65535
      · simp only [h1, if_true]
        omega
      · simp only [h1, if_false]
        rw [Nat.mod_eq_of_lt (by omega)]
        omega

theorem afterCalls_succ_fst (n : Nat) :
    (FIXApp.new.afterCalls n).NextRequestID.1 =
      IntConvertor.convert (toSignedInt (n % 65534 + 2)) := by
  have h := afterCalls_requestID (n + 1)
  rw [FIXApp.afterCalls] at h
  rw [NextRequestID_fst, h]
  simp

theorem removeOutstanding_subset (id : String) (l : List (String × Nat)) :
    ∀ p ∈ removeOutstanding id l, p ∈ l := by
  induction l with
  | nil => intro p hp; simp [removeOutstanding] at hp
  | cons q rest ih =>
    intro p hp
    unfold removeOutstanding at hp
    split_ifs at hp
    · exact List.mem_cons_of_mem _ hp
    · rcases List.mem_cons.1 hp with h | h
      · rw [h]; exact List.mem_cons_self _ _
      · exact List.mem_cons_of_mem _ (ih p h)

/-- What holds of every run: the application has made `calls` calls since it was fresh, and each
outstanding entry records the identifier its call returned. -/
theorem CorrelatorRun.foldl_step_invariant (events : List CorrelatorEvent) :
    ∀ r : CorrelatorRun,
      (r.app = FIXApp.new.afterCalls r.calls ∧
        ∀ p ∈ r.outstanding, 1 ≤ p.2 ∧ p.2 ≤ r.calls ∧
          p.1 = (FIXApp.new.afterCalls (p.2 - 1)).NextRequestID.1) →
      ((events.foldl CorrelatorRun.step r).app =
          FIXApp.new.afterCalls (events.foldl CorrelatorRun.step r).calls ∧
        ∀ p ∈ (events.foldl CorrelatorRun.step r).outstanding, 1 ≤ p.2 ∧
          p.2 ≤ (events.foldl CorrelatorRun.step r).calls ∧
          p.1 = (FIXApp.new.afterCalls (p.2 - 1)).NextRequestID.1) := by
  induction events with
  | nil => intro r h; exact h
  | cons e rest ih =>
    intro r h
    rw [List.foldl_cons]
    apply ih
    obtain ⟨happ, hout⟩ := h
    cases e with
    | request =>
      refine ⟨?_, ?_⟩
      · simp only [CorrelatorRun.step, FIXApp.afterCalls, happ]
      · intro p hp
        simp only [CorrelatorRun.step, List.mem_append, List.mem_singleton] at hp ⊢
        rcases hp with hp | hp
        · obtain ⟨h1, h2, h3⟩ := hout p hp
          exact ⟨h1, by omega, h3⟩
        · subst hp
          refine ⟨by simp, by simp, ?_⟩
          simp [happ]
    | response id =>
      refine ⟨happ, ?_⟩
      intro p hp
      exact hout p (removeOutstanding_subset id _ p hp)

theorem CorrelatorRun.after_invariant (events : List CorrelatorEvent) :
    (CorrelatorRun.after events).app = FIXApp.new.afterCalls (CorrelatorRun.after events).calls ∧
      ∀ p ∈ (CorrelatorRun.after events).outstanding, 1 ≤ p.2 ∧
        p.2 ≤ (CorrelatorRun.after events).calls ∧
        p.1 = (FIXApp.new.afterCalls (p.2 - 1)).NextRequestID.1 :=
  CorrelatorRun.foldl_step_invariant events CorrelatorRun.new
    ⟨rfl, by intro p hp; simp [CorrelatorRun.new] at hp⟩

theorem CorrelatorRun.foldl_requests (n : Nat) :
    ∀ r : CorrelatorRun,
      (List.foldl CorrelatorRun.step r (List.replicate n CorrelatorEvent.request)).calls =
          r.calls + n ∧
        ∀ p ∈ r.outstanding,
          p ∈ (List.foldl CorrelatorRun.step r
            (List.replicate n CorrelatorEvent.request)).outstanding := by
  induction n with
  | zero => intro r; simp
  | succ n ih =>
    intro r
    rw [List.replicate_succ, List.foldl_cons]
    obtain ⟨h1, h2⟩ := ih (r.step .request)
    refine ⟨?_, ?_⟩
    · rw [h1]; simp only [CorrelatorRun.step]; omega
    · intro p hp
      apply h2
      simp only [CorrelatorRun.step, List.mem_append, List.mem_singleton]
      exact Or.inl hp

/-! ## C3 -/

/-- C3 (counterexample): from a fresh `FIXApp`, the 65534th call of `NextRequestID` returns the
ceiling value "65535" and the call after it returns "2", not "1". -/
theorem C3_counterexample_after_ceiling :
    (FIXApp.new.afterCalls 65533).NextRequestID.1 = "65535"
    ∧ (FIXApp.new.afterCalls 65533).NextRequestID.2.NextRequestID.1 = "2"
    ∧ (FIXApp.new.afterCalls 65533).NextRequestID.2.NextRequestID.1 ≠ "1" := by
  rw [afterCalls_new 65533 (by norm_num)]
  decide

/-- C3 (amended): whenever a call of `NextRequestID` returns the ceiling value "65535", the next
call returns "2": the counter is reset to 1 and incremented before it is returned. -/
theorem C3_after_ceiling_returns_2 (s : FIXApp) (h : s.NextRequestID.1 = "65535") :
    s.NextRequestID.2.NextRequestID.1 = "2" := by
  have hconv : IntConvertor.convert (toSignedInt 65535) = "65535" := by decide
  rw [NextRequestID_fst, ← hconv] at h
  have hval : s.NextRequestID.2._requestID = 65535 :=
    convert_toSignedInt_injective (NextRequestID_lt s) (by norm_num) h
  rw [NextRequestID_fst, NextRequestID_requestID, hval]
  decide

/-- Witness of C3 (amended) at the state a fresh `FIXApp` reaches by 65533 calls. -/
theorem C3_after_ceiling_returns_2_witness :
    ({ FIXApp.new with _requestID := 65534 } : FIXApp).NextRequestID.1 = "65535"
    ∧ ({ FIXApp.new with _requestID := 65534 } : FIXApp).NextRequestID.2.NextRequestID.1 = "2" :=
  ⟨by decide, C3_after_ceiling_returns_2 { FIXApp.new with _requestID := 65534 } (by decide)⟩

/-! ## C4 -/

/-- C4 (counterexample): 65534 calls of `NextRequestID` from a fresh `FIXApp` with no response
arriving leave the identifier "2" of the first call outstanding, and the next call returns "2"
again. -/
theorem C4_counterexample_reuse_after_wrap :
    ("2", 1) ∈ (CorrelatorRun.after (List.replicate 65534 CorrelatorEvent.request)).outstanding
    ∧ (CorrelatorRun.after (List.replicate 65534 CorrelatorEvent.request)).app.NextRequestID.1
        = "2" := by
  have hinv := CorrelatorRun.after_invariant (List.replicate 65534 CorrelatorEvent.request)
  have hrep : List.replicate 65534 CorrelatorEvent.request =
      CorrelatorEvent.request :: List.replicate 65533 CorrelatorEvent.request := rfl
  have hreq := CorrelatorRun.foldl_requests 65533 (CorrelatorRun.new.step .request)
  have hafter : CorrelatorRun.after (List.replicate 65534 CorrelatorEvent.request) =
      List.foldl CorrelatorRun.step (CorrelatorRun.new.step .request)
        (List.replicate 65533 CorrelatorEvent.request) := by
    rw [CorrelatorRun.after, hrep, List.foldl_cons]
  refine ⟨?_, ?_⟩
  · rw [hafter]
    apply hreq.2
    decide
  · have hcalls : (CorrelatorRun.after
        (List.replicate 65534 CorrelatorEvent.request)).calls = 65534 := by
      rw [hafter, hreq.1]
      rfl
    rw [hinv.1, hcalls, afterCalls_succ_fst]
    decide

/-- C4 (amended): in every run of `NextRequestID` calls interleaved with response arrivals from a
fresh `FIXApp`, the identifier the next call returns differs from every outstanding identifier
that was issued fewer than 65534 calls before that call. -/
theorem C4_no_reuse_within_65534_calls (events : List CorrelatorEvent) (id : String) (k : Nat)
    (hout : (id, k) ∈ (CorrelatorRun.after events).outstanding)
    (hwin : (CorrelatorRun.after events).calls + 1 - k < 65534) :
    (CorrelatorRun.after events).app.NextRequestID.1 ≠ id := by
  obtain ⟨happ, hall⟩ := CorrelatorRun.after_invariant events
  obtain ⟨h1, h2, h3⟩ := hall (id, k) hout
  simp only at h1 h2 h3
  intro heq
  rw [happ, afterCalls_succ_fst, h3, afterCalls_succ_fst] at heq
  have hmod1 : (CorrelatorRun.after events).calls % 65534 < 65534 := Nat.mod_lt _ (by norm_num)
  have hmod2 : (k - 1) % 65534 < 65534 := Nat.mod_lt _ (by norm_num)
  have := convert_toSignedInt_injective (by omega) (by omega) heq
  omega

/-- Witness of C4 (amended): after one call the identifier "2" is outstanding and the second
call returns another one. -/
theorem C4_no_reuse_within_65534_calls_witness :
    ("2", 1) ∈ (CorrelatorRun.after [CorrelatorEvent.request]).outstanding
    ∧ (CorrelatorRun.after [CorrelatorEvent.request]).calls + 1 - 1 < 65534
    ∧ (CorrelatorRun.after [CorrelatorEvent.request]).app.NextRequestID.1 ≠ "2" :=
  ⟨by decide, by decide,
   C4_no_reuse_within_65534_calls [CorrelatorEvent.request] "2" 1 (by decide) (by decide)⟩

/-! ## Lemmas: field maps -/

theorem Fields.setField_cons (p : Field × String) (rest : Fields) (f : Field) (v : String) :
    Fields.setField (p :: rest) f v =
      if p.1 = f then (f, v) :: rest.map (fun q => if q.1 == f then (f, v) else q)
      else p :: Fields.setField rest f v := by
  unfold Fields.setField
  by_cases h : p.1 = f
  · simp [h]
  · by_cases hr : rest.any (fun q => q.1 == f) = true
    · simp [h, hr]
    · simp only [Bool.not_eq_true] at hr
      simp [h, hr]

theorem Fields.lookup_setField (fm : Fields) (f : Field) (v : String) :
    List.lookup f (Fields.setField fm f v) = some v := by
  induction fm with
  | nil => simp [Fields.setField, List.lookup]
  | cons p rest ih =>
    rw [Fields.setField_cons]
    by_cases h : p.1 = f
    · simp [h, List.lookup]
    · have h' : (f == p.1) = false := by
        simp only [beq_eq_false_iff_ne, ne_eq]
        exact fun e => h e.symm
      simp only [h, if_false]
      obtain ⟨k, w⟩ := p
      simp only at h'
      rw [List.lookup, h']
      exact ih

theorem Fields.getField_setField (fm : Fields) (f : Field) (v : String) :
    (fm.setField f v).getField f = .ok v := by
  unfold Fields.getField
  rw [Fields.lookup_setField]

/-! ## C8 -/

/-- C8: `IsMarketDataSession` answers true exactly when the key `MarketDataSession` is present
in the session's settings and true, `IsOrderSession` exactly when `OrderSession` is present and
true; each answers false when its key is absent; each answer depends on the entry of its own
key only; and there are sessions with either role, both and neither. -/
theorem C8_session_roles_from_configuration (env : Env) (session_ID : SessionID) :
    (IsMarketDataSession env session_ID = .ok true ↔
        (env.sessionSettings session_ID).has "MarketDataSession" = true ∧
        (env.sessionSettings session_ID).getBool "MarketDataSession" = .ok true)
    ∧ (IsOrderSession env session_ID = .ok true ↔
        (env.sessionSettings session_ID).has "OrderSession" = true ∧
        (env.sessionSettings session_ID).getBool "OrderSession" = .ok true)
    ∧ ((env.sessionSettings session_ID).has "MarketDataSession" = false →
        IsMarketDataSession env session_ID = .ok false)
    ∧ ((env.sessionSettings session_ID).has "OrderSession" = false →
        IsOrderSession env session_ID = .ok false)
    ∧ (∀ env2 : Env,
        List.lookup "MarketDataSession" (env2.sessionSettings session_ID) =
          List.lookup "MarketDataSession" (env.sessionSettings session_ID) →
        IsMarketDataSession env2 session_ID = IsMarketDataSession env session_ID)
    ∧ (∀ env2 : Env,
        List.lookup "OrderSession" (env2.sessionSettings session_ID) =
          List.lookup "OrderSession" (env.sessionSettings session_ID) →
        IsOrderSession env2 session_ID = IsOrderSession env session_ID)
    ∧ (∀ market order : Bool, ∃ d : Dictionary,
        IsMarketDataSession { env with sessionSettings := fun _ => d } session_ID = .ok market ∧
        IsOrderSession { env with sessionSettings := fun _ => d } session_ID = .ok order) := by
  refine ⟨?_, ?_, ?_, ?_, ?_, ?_, ?_⟩
  · unfold IsMarketDataSession
    by_cases h : (env.sessionSettings session_ID).has "MarketDataSession" = true <;> simp [h]
  · unfold IsOrderSession
    by_cases h : (env.sessionSettings session_ID).has "OrderSession" = true <;> simp [h]
  · intro h
    simp [IsMarketDataSession, h]
  · intro h
    simp [IsOrderSession, h]
  · intro env2 h
    simp only [IsMarketDataSession, Dictionary.has, Dictionary.getBool, h]
  · intro env2 h
    simp only [IsOrderSession, Dictionary.has, Dictionary.getBool, h]
  · intro market order
    cases market <;> cases order
    · exact ⟨[], rfl, rfl⟩
    · exact ⟨[("OrderSession", "Y")], rfl, rfl⟩
    · exact ⟨[("MarketDataSession", "Y")], rfl, rfl⟩
    · exact ⟨[("MarketDataSession", "Y"), ("OrderSession", "Y")], rfl, rfl⟩

/-- Witness of C8: a session whose settings hold `OrderSession=Y` only; the market-data key is
absent and the answer is false, while the order answer is true. -/
theorem C8_session_roles_from_configuration_witness :
    Dictionary.has [("OrderSession", "Y")] "MarketDataSession" = false
    ∧ IsMarketDataSession
        { defaults := [], sessionSettings := fun _ => [("OrderSession", "Y")], now := "" } {}
        = .ok false
    ∧ IsOrderSession
        { defaults := [], sessionSettings := fun _ => [("OrderSession", "Y")], now := "" } {}
        = .ok true :=
  ⟨by decide,
   (C8_session_roles_from_configuration
      { defaults := [], sessionSettings := fun _ => [("OrderSession", "Y")], now := "" }
      {}).2.2.1 (by decide),
   by decide⟩

/-! ## C9 -/

/-- C9: when the settings define `TargetSubID`, every outbound message leaves its callback with
the header field `TargetSubID` equal to that setting, whatever the header held before: `toApp`
for every message, `toAdmin` for every message of any type (for a Logon, the settings also
define the credentials the callback reads first). -/
theorem C9_TargetSubID_on_outbound_messages (env : Env) (message : Message) (sub_ID : String)
    (hsub : env.defaults.getString "TargetSubID" = .ok sub_ID) :
    ((toApp env message).2 = none
      ∧ (toApp env message).1.header.getField .TargetSubID = .ok sub_ID)
    ∧ (∀ msg_type : String, message.header.getField .MsgType = .ok msg_type →
        (msg_type = "A" → env.defaults.has "Username" = true ∧
          env.defaults.has "Password" = true) →
        (toAdmin env message).2 = none
        ∧ (toAdmin env message).1.header.getField .TargetSubID = .ok sub_ID) := by
  refine ⟨?_, ?_⟩
  · simp only [toApp, hsub]
    exact ⟨trivial, Fields.getField_setField _ _ _⟩
  · intro msg_type htype hcred
    unfold toAdmin
    simp only [htype]
    by_cases hA : msg_type = "A"
    · obtain ⟨hu, hp⟩ := hcred hA
      simp only [Dictionary.has, Option.isSome_iff_exists] at hu hp
      obtain ⟨u, hu⟩ := hu
      obtain ⟨pw, hp⟩ := hp
      simp only [hA, beq_self_eq_true, if_true, Dictionary.getString, hu, hp]
      simp only [Dictionary.getString] at hsub
      simp only [hsub]
      exact ⟨trivial, Fields.getField_setField _ _ _⟩
    · simp only [beq_iff_eq, hA, if_false, hsub]
      exact ⟨trivial, Fields.getField_setField _ _ _⟩

/-- Witness of C9: a Logon and a settings file with credentials and `TargetSubID`; the header
carried another `TargetSubID` before. -/
theorem C9_TargetSubID_on_outbound_messages_witness :
    (toAdmin
      { defaults := [("Username", "u"), ("Password", "p"), ("TargetSubID", "U100D1")],
        sessionSettings := fun _ => [], now := "" }
      { header := [(.MsgType, "A"), (.TargetSubID, "old")], fields := [], groups := [] }).2 = none
    ∧ (toAdmin
      { defaults := [("Username", "u"), ("Password", "p"), ("TargetSubID", "U100D1")],
        sessionSettings := fun _ => [], now := "" }
      { header := [(.MsgType, "A"), (.TargetSubID, "old")], fields := [],
        groups := [] }).1.header.getField .TargetSubID = .ok "U100D1" :=
  (C9_TargetSubID_on_outbound_messages
    { defaults := [("Username", "u"), ("Password", "p"), ("TargetSubID", "U100D1")],
      sessionSettings := fun _ => [], now := "" }
    { header := [(.MsgType, "A"), (.TargetSubID, "old")], fields := [], groups := [] }
    "U100D1" (by decide)).2 "A" (by decide) (fun _ => ⟨by decide, by decide⟩)

/-! ## Lemmas: instruments -/

theorem DataContext.addInstrument_eq (ctx : DataContext) (instrument : Instrument) :
    ctx.addInstrument instrument =
      if instrument.symbol ∈ ctx.m_instrument_list.map (fun i => i.symbol) then ctx
      else { ctx with m_instrument_list := ctx.m_instrument_list ++ [instrument] } := by
  unfold DataContext.addInstrument
  by_cases h : instrument.symbol ∈ ctx.m_instrument_list.map (fun i => i.symbol)
  · simp only [h, if_true]
    obtain ⟨x, hx, hsym⟩ := List.mem_map.1 h
    cases hf : ctx.m_instrument_list.find? (fun lh => lh.symbol == instrument.symbol) with
    | some _ => rfl
    | none =>
      rw [List.find?_eq_none] at hf
      exact absurd (by simpa using hsym) (hf x hx)
  · simp only [h, if_false]
    cases hf : ctx.m_instrument_list.find? (fun lh => lh.symbol == instrument.symbol) with
    | none => rfl
    | some y =>
      have hy := List.find?_some hf
      have hmem := List.mem_of_find?_eq_some hf
      simp only [beq_iff_eq] at hy
      exact absurd (List.mem_map.2 ⟨y, hmem, hy⟩) h

theorem DataContext.addInstrument_nodup (ctx : DataContext) (instrument : Instrument)
    (h : (ctx.m_instrument_list.map (fun i => i.symbol)).Nodup) :
    ((ctx.addInstrument instrument).m_instrument_list.map (fun i => i.symbol)).Nodup := by
  rw [DataContext.addInstrument_eq]
  split_ifs with hmem
  · exact h
  · simp only [List.map_append, List.map_cons, List.map_nil]
    rw [List.nodup_append]
    refine ⟨h, List.nodup_singleton _, ?_⟩
    intro a ha hb
    rw [List.mem_singleton] at hb
    exact hmem (hb ▸ ha)

theorem DataContext.slotExchangeInstrumentList_nodup (instruments : List Instrument) :
    ∀ ctx : DataContext, (ctx.m_instrument_list.map (fun i => i.symbol)).Nodup →
      ((ctx.slotExchangeInstrumentList instruments).m_instrument_list.map
        (fun i => i.symbol)).Nodup := by
  induction instruments with
  | nil => intro ctx h; exact h
  | cons x xs ih =>
    intro ctx h
    exact ih (ctx.addInstrument x) (DataContext.addInstrument_nodup ctx x h)

theorem DataContext.foldl_apply_nodup (ops : List InstrumentOp) :
    ∀ ctx : DataContext, (ctx.m_instrument_list.map (fun i => i.symbol)).Nodup →
      ((ops.foldl DataContext.apply ctx).m_instrument_list.map (fun i => i.symbol)).Nodup := by
  induction ops with
  | nil => intro ctx h; exact h
  | cons op rest ih =>
    intro ctx h
    rw [List.foldl_cons]
    apply ih
    cases op with
    | addInstrument instrument => exact DataContext.addInstrument_nodup ctx instrument h
    | addInstrumentBySymbol symbol => exact DataContext.addInstrument_nodup ctx _ h
    | instrumentList instruments =>
      exact DataContext.slotExchangeInstrumentList_nodup instruments ctx h

/-! ## C10 -/

/-- C10: in every state reached from an empty `DataContext` by `addInstrument` (either
overload) and instrument-list events, no two instruments of the list have the same symbol;
adding an instrument whose symbol is in the list leaves the context unchanged, and adding one
with a new symbol appends it at the end of the list. -/
theorem C10_instruments_unique_by_symbol (ops : List InstrumentOp) :
    ((ops.foldl DataContext.apply DataContext.new).m_instrument_list.map
        (fun i => i.symbol)).Nodup
    ∧ (∀ (ctx : DataContext) (instrument : Instrument),
        instrument.symbol ∈ ctx.m_instrument_list.map (fun i => i.symbol) →
        ctx.addInstrument instrument = ctx)
    ∧ (∀ (ctx : DataContext) (instrument : Instrument),
        instrument.symbol ∉ ctx.m_instrument_list.map (fun i => i.symbol) →
        (ctx.addInstrument instrument).m_instrument_list =
          ctx.m_instrument_list ++ [instrument])
    ∧ (∀ (ctx : DataContext) (symbol : String),
        symbol ∈ ctx.m_instrument_list.map (fun i => i.symbol) →
        ctx.addInstrumentBySymbol symbol = ctx)
    ∧ (∀ (ctx : DataContext) (symbol : String),
        symbol ∉ ctx.m_instrument_list.map (fun i => i.symbol) →
        (ctx.addInstrumentBySymbol symbol).m_instrument_list =
          ctx.m_instrument_list ++ [{ symbol := symbol }]) := by
  refine ⟨?_, ?_, ?_, ?_, ?_⟩
  · exact DataContext.foldl_apply_nodup ops DataContext.new (by simp [DataContext.new])
  · intro ctx instrument h
    rw [DataContext.addInstrument_eq, if_pos h]
  · intro ctx instrument h
    rw [DataContext.addInstrument_eq, if_neg h]
  · intro ctx symbol h
    rw [DataContext.addInstrumentBySymbol, DataContext.addInstrument_eq, if_pos h]
  · intro ctx symbol h
    rw [DataContext.addInstrumentBySymbol, DataContext.addInstrument_eq, if_neg h]

/-- Witness of C10: after `EUR/USD` and `USD/JPY` were added, adding `EUR/USD` again (with
another volume) changes nothing, and `GBP/USD` goes to the end. -/
theorem C10_instruments_unique_by_symbol_witness :
    ((DataContext.new.addInstrumentBySymbol "EUR/USD").addInstrumentBySymbol "USD/JPY").addInstrument
        { symbol := "EUR/USD", volume := 5 } =
      (DataContext.new.addInstrumentBySymbol "EUR/USD").addInstrumentBySymbol "USD/JPY"
    ∧ (((DataContext.new.addInstrumentBySymbol "EUR/USD").addInstrumentBySymbol
        "USD/JPY").addInstrument { symbol := "GBP/USD" }).m_instrument_list =
      [{ symbol := "EUR/USD" }, { symbol := "USD/JPY" }, { symbol := "GBP/USD" }] :=
  ⟨(C10_instruments_unique_by_symbol []).2.1
      ((DataContext.new.addInstrumentBySymbol "EUR/USD").addInstrumentBySymbol "USD/JPY")
      { symbol := "EUR/USD", volume := 5 } (by decide),
   by decide⟩

/-! ## Lemmas: market-data requests -/

theorem subscribeMarketDataRequest_eq : subscribeMarketDataRequest = marketDataRequest "1" := by
  decide

theorem unsubscribeMarketDataRequest_eq :
    unsubscribeMarketDataRequest = marketDataRequest "2" := by
  decide

theorem SubscribeMarketData_eq (s : FIXApp) :
    s.SubscribeMarketData = s.sendToTarget (marketDataRequest "1") s._market_sessionID := by
  rw [FIXApp.SubscribeMarketData, subscribeMarketDataRequest_eq]

theorem UnsubscribeMarketData_eq (s : FIXApp) :
    s.UnsubscribeMarketData = s.sendToTarget (marketDataRequest "2") s._market_sessionID := by
  rw [FIXApp.UnsubscribeMarketData, unsubscribeMarketDataRequest_eq]

/-! ## Lemmas: commands -/

theorem NextRequestID_sent (s : FIXApp) : s.NextRequestID.2.sent = s.sent := by
  rw [NextRequestID_frame]

theorem NextRequestID_order_sessionID (s : FIXApp) :
    s.NextRequestID.2._order_sessionID = s._order_sessionID := by
  rw [NextRequestID_frame]

theorem NextRequestID_market_sessionID (s : FIXApp) :
    s.NextRequestID.2._market_sessionID = s._market_sessionID := by
  rw [NextRequestID_frame]

theorem NextRequestID_list_accountID (s : FIXApp) :
    s.NextRequestID.2._list_accountID = s._list_accountID := by
  rw [NextRequestID_frame]

theorem targetsSince_append (s t : FIXApp) (l : List (Message × SessionID))
    (h : t.sent = s.sent ++ l) : targetsSince s t = l.map Prod.snd := by
  simp [targetsSince, h]

/-- Each iteration of a per-account loop hands one request to the send primitive, addressed to
the stored order session, and writes neither session id nor the account list. -/
theorem foldl_order_step (step : FIXApp → String → FIXApp)
    (hstep : ∀ st a, ∃ m, step st a = st.NextRequestID.2.sendToTarget m st._order_sessionID)
    (accounts : List String) :
    ∀ s : FIXApp, ∃ l : List (Message × SessionID),
      (accounts.foldl step s).sent = s.sent ++ l
      ∧ l.map Prod.snd = List.replicate accounts.length s._order_sessionID
      ∧ (accounts.foldl step s)._order_sessionID = s._order_sessionID
      ∧ (accounts.foldl step s)._market_sessionID = s._market_sessionID
      ∧ (accounts.foldl step s)._list_accountID = s._list_accountID := by
  induction accounts with
  | nil => intro s; exact ⟨[], by simp, by simp, rfl, rfl, rfl⟩
  | cons a rest ih =>
    intro s
    obtain ⟨m, hm⟩ := hstep s a
    obtain ⟨l, h1, h2, h3, h4, h5⟩ := ih (step s a)
    have e1 : (step s a).sent = s.sent ++ [(m, s._order_sessionID)] := by
      rw [hm]; simp [FIXApp.sendToTarget, NextRequestID_sent]
    have e2 : (step s a)._order_sessionID = s._order_sessionID := by
      rw [hm]; simp [FIXApp.sendToTarget, NextRequestID_order_sessionID]
    have e3 : (step s a)._market_sessionID = s._market_sessionID := by
      rw [hm]; simp [FIXApp.sendToTarget, NextRequestID_market_sessionID]
    have e4 : (step s a)._list_accountID = s._list_accountID := by
      rw [hm]; simp [FIXApp.sendToTarget, NextRequestID_list_accountID]
    refine ⟨(m, s._order_sessionID) :: l, ?_, ?_, ?_, ?_, ?_⟩
    · rw [List.foldl_cons, h1, e1]; simp
    · simp [h2, e2, List.replicate_succ]
    · rw [List.foldl_cons, h3, e2]
    · rw [List.foldl_cons, h4, e3]
    · rw [List.foldl_cons, h5, e4]

/-- Where each command's requests go: every command hands its requests to the send primitive
without a check, addressed to the stored session id of its role. -/
theorem command_targets (env : Env) (s : FIXApp) :
    targetsSince s s.GetTradingStatus = [s._order_sessionID]
    ∧ targetsSince s s.GetAccounts = [s._order_sessionID]
    ∧ targetsSince s (s.GetPositions env) =
        List.replicate s._list_accountID.length s._order_sessionID
    ∧ targetsSince s (s.MarketOrder env) =
        List.replicate s._list_accountID.length s._order_sessionID
    ∧ targetsSince s s.SubscribeMarketData = [s._market_sessionID]
    ∧ targetsSince s s.UnsubscribeMarketData = [s._market_sessionID] := by
  refine ⟨?_, ?_, ?_, ?_, ?_, ?_⟩
  · rw [targetsSince_append s _ [(tradingSessionStatusRequest s.NextRequestID.1,
      s._order_sessionID)]]
    · rfl
    · simp [FIXApp.GetTradingStatus, FIXApp.sendToTarget, NextRequestID_sent,
        NextRequestID_order_sessionID]
  · rw [targetsSince_append s _ [(collateralInquiry s.NextRequestID.1, s._order_sessionID)]]
    · rfl
    · simp [FIXApp.GetAccounts, FIXApp.sendToTarget, NextRequestID_sent,
        NextRequestID_order_sessionID]
  · obtain ⟨l, h1, h2, _⟩ := foldl_order_step (FIXApp.GetPositions.step env)
      (fun st a => ⟨positionsRequest env.now st.NextRequestID.1 a,
        by simp [FIXApp.GetPositions.step, NextRequestID_order_sessionID]⟩)
      s._list_accountID s
    rw [FIXApp.GetPositions, targetsSince_append s _ l h1, h2]
  · obtain ⟨l, h1, h2, _⟩ := foldl_order_step (FIXApp.MarketOrder.step env)
      (fun st a => ⟨newOrderSingle env.now st.NextRequestID.1 a,
        by simp [FIXApp.MarketOrder.step, NextRequestID_order_sessionID]⟩)
      s._list_accountID s
    rw [FIXApp.MarketOrder, targetsSince_append s _ l h1, h2]
  · rw [targetsSince_append s _ [(marketDataRequest "1", s._market_sessionID)]]
    · rfl
    · simp [SubscribeMarketData_eq, FIXApp.sendToTarget]
  · rw [targetsSince_append s _ [(marketDataRequest "2", s._market_sessionID)]]
    · rfl
    · simp [UnsubscribeMarketData_eq, FIXApp.sendToTarget]

/-! ## Lemmas: logons -/

theorem GetTradingStatus_eq (s : FIXApp) :
    s.GetTradingStatus =
      { s with
        _requestID := s.NextRequestID.2._requestID
        sent := s.sent ++ [(tradingSessionStatusRequest s.NextRequestID.1, s._order_sessionID)] } := by
  simp only [FIXApp.GetTradingStatus, FIXApp.sendToTarget, NextRequestID_sent,
    NextRequestID_order_sessionID, NextRequestID_market_sessionID, NextRequestID_list_accountID]

theorem getLast?_cons_getD (x : SessionID) (l : List SessionID) (d : SessionID) :
    ((x :: l).getLast?).getD d = (l.getLast?).getD x := by
  cases l with
  | nil => rfl
  | cons y t =>
    rw [List.getLast?_cons_cons]
    cases h : (y :: t).getLast? with
    | none => simp at h
    | some z => rfl

theorem lastLogon_cons (role : SessionID → Bool) (x : SessionID) (l : List SessionID)
    (d : SessionID) :
    (lastLogon role (x :: l)).getD d = (lastLogon role l).getD (if role x then x else d) := by
  unfold lastLogon
  by_cases h : role x = true
  · simp only [List.filter_cons, h, if_true]
    exact getLast?_cons_getD _ _ _
  · simp only [Bool.not_eq_true] at h
    simp [List.filter_cons, h]

theorem lastLogon_eq_none (role : SessionID → Bool) (l : List SessionID)
    (h : ∀ x ∈ l, role x = false) : lastLogon role l = none := by
  unfold lastLogon
  have : l.filter role = [] := by
    rw [List.filter_eq_nil_iff]
    intro x hx
    simp [h x hx]
  rw [this]
  rfl

theorem requestsSince_append (s t : FIXApp) (l : List (Message × SessionID))
    (h : t.sent = s.sent ++ l) : requestsSince s t = l.map Prod.fst := by
  simp [requestsSince, h]

theorem NextRequestID_fst_congr (s t : FIXApp) (h : s._requestID = t._requestID) :
    s.NextRequestID.1 = t.NextRequestID.1 := by
  rw [NextRequestID_fst, NextRequestID_fst, NextRequestID_requestID, NextRequestID_requestID, h]

/-! ## Lemmas: commands against the engine -/

theorem engine_GetTradingStatus (engine : Engine) (s : FIXApp) :
    engine.GetTradingStatus s =
      (s.GetTradingStatus,
        if engine.lookupSession s._order_sessionID then none else some .SessionNotFound) := by
  simp only [Engine.GetTradingStatus, Engine.sendToTarget, FIXApp.GetTradingStatus,
    NextRequestID_order_sessionID]

theorem engine_GetAccounts (engine : Engine) (s : FIXApp) :
    engine.GetAccounts s =
      (s.GetAccounts,
        if engine.lookupSession s._order_sessionID then none else some .SessionNotFound) := by
  simp only [Engine.GetAccounts, Engine.sendToTarget, FIXApp.GetAccounts,
    NextRequestID_order_sessionID]

theorem engine_SubscribeMarketData (engine : Engine) (s : FIXApp) :
    engine.SubscribeMarketData s =
      (s.SubscribeMarketData,
        if engine.lookupSession s._market_sessionID then none else some .SessionNotFound) := rfl

theorem engine_UnsubscribeMarketData (engine : Engine) (s : FIXApp) :
    engine.UnsubscribeMarketData s =
      (s.UnsubscribeMarketData,
        if engine.lookupSession s._market_sessionID then none else some .SessionNotFound) := rfl

theorem GetPositions_step_frame (env : Env) (st : FIXApp) (a : String) :
    (FIXApp.GetPositions.step env st a)._order_sessionID = st._order_sessionID
    ∧ (FIXApp.GetPositions.step env st a)._market_sessionID = st._market_sessionID
    ∧ (FIXApp.GetPositions.step env st a)._list_accountID = st._list_accountID := by
  simp [FIXApp.GetPositions.step, FIXApp.sendToTarget, NextRequestID_order_sessionID,
    NextRequestID_market_sessionID, NextRequestID_list_accountID]

theorem MarketOrder_step_frame (env : Env) (st : FIXApp) (a : String) :
    (FIXApp.MarketOrder.step env st a)._order_sessionID = st._order_sessionID
    ∧ (FIXApp.MarketOrder.step env st a)._market_sessionID = st._market_sessionID
    ∧ (FIXApp.MarketOrder.step env st a)._list_accountID = st._list_accountID := by
  simp [FIXApp.MarketOrder.step, FIXApp.sendToTarget, NextRequestID_order_sessionID,
    NextRequestID_market_sessionID, NextRequestID_list_accountID]

/-- One iteration of the loop of `GetPositions` against the engine: the request of the first
account is handed over; the loop goes on when the engine has the stored order session and ends
with `SessionNotFound` otherwise. -/
theorem engine_GetPositions_loop_cons (engine : Engine) (env : Env) (a : String)
    (rest : List String) (st : FIXApp) :
    Engine.GetPositions.loop engine env (a :: rest) st =
      if engine.lookupSession st._order_sessionID then
        Engine.GetPositions.loop engine env rest (FIXApp.GetPositions.step env st a)
      else (FIXApp.GetPositions.step env st a, some .SessionNotFound) := by
  rw [Engine.GetPositions.loop]
  cases h : engine.lookupSession st._order_sessionID <;>
    simp [Engine.sendToTarget, FIXApp.GetPositions.step, NextRequestID_order_sessionID, h]

theorem engine_MarketOrder_loop_cons (engine : Engine) (env : Env) (a : String)
    (rest : List String) (st : FIXApp) :
    Engine.MarketOrder.loop engine env (a :: rest) st =
      if engine.lookupSession st._order_sessionID then
        Engine.MarketOrder.loop engine env rest (FIXApp.MarketOrder.step env st a)
      else (FIXApp.MarketOrder.step env st a, some .SessionNotFound) := by
  rw [Engine.MarketOrder.loop]
  cases h : engine.lookupSession st._order_sessionID <;>
    simp [Engine.sendToTarget, FIXApp.MarketOrder.step, NextRequestID_order_sessionID, h]

theorem engine_GetPositions_loop_frame (engine : Engine) (env : Env) (accounts : List String) :
    ∀ st : FIXApp,
      (Engine.GetPositions.loop engine env accounts st).1._order_sessionID = st._order_sessionID
      ∧ (Engine.GetPositions.loop engine env accounts st).1._market_sessionID
          = st._market_sessionID := by
  induction accounts with
  | nil => intro st; exact ⟨rfl, rfl⟩
  | cons a rest ih =>
    intro st
    rw [engine_GetPositions_loop_cons]
    obtain ⟨h1, h2, _⟩ := GetPositions_step_frame env st a
    cases engine.lookupSession st._order_sessionID with
    | true =>
      obtain ⟨i1, i2⟩ := ih (FIXApp.GetPositions.step env st a)
      exact ⟨by simp [i1, h1], by simp [i2, h2]⟩
    | false => exact ⟨by simp [h1], by simp [h2]⟩

theorem engine_MarketOrder_loop_frame (engine : Engine) (env : Env) (accounts : List String) :
    ∀ st : FIXApp,
      (Engine.MarketOrder.loop engine env accounts st).1._order_sessionID = st._order_sessionID
      ∧ (Engine.MarketOrder.loop engine env accounts st).1._market_sessionID
          = st._market_sessionID := by
  induction accounts with
  | nil => intro st; exact ⟨rfl, rfl⟩
  | cons a rest ih =>
    intro st
    rw [engine_MarketOrder_loop_cons]
    obtain ⟨h1, h2, _⟩ := MarketOrder_step_frame env st a
    cases engine.lookupSession st._order_sessionID with
    | true =>
      obtain ⟨i1, i2⟩ := ih (FIXApp.MarketOrder.step env st a)
      exact ⟨by simp [i1, h1], by simp [i2, h2]⟩
    | false => exact ⟨by simp [h1], by simp [h2]⟩

/-- No command writes a stored session id. -/
theorem engine_command_frame (engine : Engine) (env : Env) (s : FIXApp) (c : Command) :
    (engine.command env s c).1._order_sessionID = s._order_sessionID
    ∧ (engine.command env s c).1._market_sessionID = s._market_sessionID := by
  cases c with
  | GetTradingStatus =>
    simp only [Engine.command, engine_GetTradingStatus, GetTradingStatus_eq]
    exact ⟨trivial, trivial⟩
  | GetAccounts =>
    simp only [Engine.command, engine_GetAccounts, FIXApp.GetAccounts, FIXApp.sendToTarget,
      NextRequestID_order_sessionID, NextRequestID_market_sessionID]
    exact ⟨trivial, trivial⟩
  | GetPositions => exact engine_GetPositions_loop_frame engine env _ s
  | MarketOrder => exact engine_MarketOrder_loop_frame engine env _ s
  | SubscribeMarketData => exact ⟨rfl, rfl⟩
  | UnsubscribeMarketData => exact ⟨rfl, rfl⟩

/-! ## Lemmas: logon callbacks -/

theorem onLogon_market_sessionID (engine : Engine) (env : Env) (s : FIXApp)
    (sessionID : SessionID) :
    (s.onLogon engine env sessionID).1._market_sessionID =
      if marksMarketData env sessionID then sessionID else s._market_sessionID := by
  unfold FIXApp.onLogon marksMarketData
  cases hm : IsMarketDataSession env sessionID with
  | error e => simp
  | ok b =>
    cases ho : IsOrderSession env sessionID with
    | error e =>
      cases b <;> cases hl : engine.lookupSession s._order_sessionID <;>
        simp [engine_GetTradingStatus, GetTradingStatus_eq, hl]
    | ok o =>
      cases b <;> cases o <;> cases hl : engine.lookupSession s._order_sessionID <;>
        simp [engine_GetTradingStatus, GetTradingStatus_eq, hl]

theorem onLogon_order_sessionID_of_not_marked (engine : Engine) (env : Env) (s : FIXApp)
    (sessionID : SessionID) (h : marksOrder env sessionID = false) :
    (s.onLogon engine env sessionID).1._order_sessionID = s._order_sessionID := by
  unfold marksOrder at h
  unfold FIXApp.onLogon
  cases hm : IsMarketDataSession env sessionID with
  | error e => simp
  | ok b =>
    cases ho : IsOrderSession env sessionID with
    | error e =>
      cases b <;> cases hl : engine.lookupSession s._order_sessionID <;>
        simp [engine_GetTradingStatus, GetTradingStatus_eq, hl]
    | ok o =>
      cases o with
      | true => simp [ho] at h
      | false =>
        cases b <;> cases hl : engine.lookupSession s._order_sessionID <;>
          simp [engine_GetTradingStatus, GetTradingStatus_eq, hl]

/-- The logon of a market-data session while the engine has no session with the stored order
session id: the callback stores the market-data session, hands the trading-status request to the
send primitive, and is ended there by `SessionNotFound`. -/
theorem onLogon_market_unknown (engine : Engine) (env : Env) (s : FIXApp)
    (sessionID : SessionID) (hm : marksMarketData env sessionID = true)
    (hl : engine.lookupSession s._order_sessionID = false) :
    s.onLogon engine env sessionID =
      (({ s with _market_sessionID := sessionID } : FIXApp).GetTradingStatus,
        some .SessionNotFound) := by
  unfold marksMarketData at hm
  simp only [decide_eq_true_eq] at hm
  unfold FIXApp.onLogon
  simp [hm, engine_GetTradingStatus, hl]

/-- The request a market-data logon hands over is addressed to the order session stored before
the callback. -/
theorem onLogon_market_targets (engine : Engine) (env : Env) (s : FIXApp)
    (sessionID : SessionID) (hm : marksMarketData env sessionID = true) :
    targetsSince s (s.onLogon engine env sessionID).1 = [s._order_sessionID] := by
  have hsent : (s.onLogon engine env sessionID).1.sent =
      s.sent ++ [(tradingSessionStatusRequest s.NextRequestID.1, s._order_sessionID)] := by
    have hid : ({ s with _market_sessionID := sessionID } : FIXApp).NextRequestID.1 =
        s.NextRequestID.1 := NextRequestID_fst_congr _ _ rfl
    unfold marksMarketData at hm
    simp only [decide_eq_true_eq] at hm
    unfold FIXApp.onLogon
    cases ho : IsOrderSession env sessionID with
    | error e =>
      cases hl : engine.lookupSession s._order_sessionID <;>
        simp [hm, engine_GetTradingStatus, GetTradingStatus_eq, hl, hid]
    | ok o =>
      cases o <;> cases hl : engine.lookupSession s._order_sessionID <;>
        simp [hm, engine_GetTradingStatus, GetTradingStatus_eq, hl, hid]
  rw [targetsSince_append s _ _ hsent]
  rfl

theorem step_market_sessionID (engine : Engine) (env : Env) (s : FIXApp) (event : AppEvent) :
    (engine.step env s event).1._market_sessionID =
      (lastLogon (marksMarketData env) (logonsOf [event])).getD s._market_sessionID := by
  cases event with
  | logon sessionID =>
    rw [Engine.step, onLogon_market_sessionID]
    cases h : marksMarketData env sessionID <;> simp [logonsOf, lastLogon, h]
  | logout sessionID =>
    simp only [Engine.step, logonsOf, List.filterMap_cons, List.filterMap_nil, lastLogon]
    unfold FIXApp.onLogout
    cases IsMarketDataSession env sessionID with
    | error e => rfl
    | ok b => cases IsOrderSession env sessionID <;> rfl
  | collateralReport cr =>
    simp only [Engine.step, logonsOf, List.filterMap_cons, List.filterMap_nil, lastLogon]
    unfold FIXApp.onMessageCollateralReport
    cases collateralReportAccount cr <;> rfl
  | command c => exact (engine_command_frame engine env s c).2

theorem step_order_sessionID (engine : Engine) (env : Env) (s : FIXApp) (event : AppEvent)
    (h : ∀ sessionID, event ≠ .logon sessionID) :
    (engine.step env s event).1._order_sessionID = s._order_sessionID := by
  cases event with
  | logon sessionID => exact absurd rfl (h sessionID)
  | logout sessionID =>
    simp only [Engine.step]
    unfold FIXApp.onLogout
    cases IsMarketDataSession env sessionID with
    | error e => rfl
    | ok b => cases IsOrderSession env sessionID <;> rfl
  | collateralReport cr =>
    simp only [Engine.step]
    unfold FIXApp.onMessageCollateralReport
    cases collateralReportAccount cr <;> rfl
  | command c => exact (engine_command_frame engine env s c).1

/-! ## Lemmas: runs -/

theorem run_cons (engine : Engine) (env : Env) (s : FIXApp) (event : AppEvent)
    (rest : List AppEvent) :
    engine.run env s (event :: rest) = engine.run env (engine.step env s event).1 rest := rfl

theorem logonsOf_cons_logon (sessionID : SessionID) (rest : List AppEvent) :
    logonsOf (.logon sessionID :: rest) = sessionID :: logonsOf rest := rfl

theorem logonsOf_cons_other (event : AppEvent) (rest : List AppEvent)
    (h : ∀ sessionID, event ≠ .logon sessionID) :
    logonsOf (event :: rest) = logonsOf rest := by
  cases event with
  | logon sessionID => exact absurd rfl (h sessionID)
  | logout sessionID => rfl
  | collateralReport cr => rfl
  | command c => rfl

/-- After any events, the stored market-data session is the last session that logged on and is
marked market-data. -/
theorem run_market_sessionID (engine : Engine) (env : Env) (events : List AppEvent) :
    ∀ s : FIXApp, (engine.run env s events)._market_sessionID =
      (lastLogon (marksMarketData env) (logonsOf events)).getD s._market_sessionID := by
  induction events with
  | nil => intro s; rfl
  | cons event rest ih =>
    intro s
    rw [run_cons, ih]
    cases event with
    | logon sessionID =>
      rw [Engine.step, onLogon_market_sessionID, logonsOf_cons_logon, lastLogon_cons]
    | logout sessionID => rw [step_market_sessionID]; rfl
    | collateralReport cr => rw [step_market_sessionID]; rfl
    | command c => rw [step_market_sessionID]; rfl

/-- While no session marked order logs on, the stored order session stays what it was. -/
theorem run_order_sessionID_of_none (engine : Engine) (env : Env) (events : List AppEvent) :
    ∀ s : FIXApp, (∀ sessionID ∈ logonsOf events, marksOrder env sessionID = false) →
      (engine.run env s events)._order_sessionID = s._order_sessionID := by
  induction events with
  | nil => intro s _; rfl
  | cons event rest ih =>
    intro s h
    rw [run_cons]
    cases event with
    | logon sessionID =>
      rw [logonsOf_cons_logon] at h
      rw [ih _ (fun y hy => h y (List.mem_cons_of_mem _ hy))]
      exact onLogon_order_sessionID_of_not_marked engine env s sessionID
        (h sessionID (List.mem_cons_self _ _))
    | logout sessionID =>
      rw [ih _ h]
      exact step_order_sessionID engine env s _ (fun _ e => by cases e)
    | collateralReport cr =>
      rw [ih _ h]
      exact step_order_sessionID engine env s _ (fun _ e => by cases e)
    | command c =>
      rw [ih _ h]
      exact step_order_sessionID engine env s _ (fun _ e => by cases e)

theorem GetPositions_step_targets (env : Env) (s : FIXApp) (a : String) :
    targetsSince s (FIXApp.GetPositions.step env s a) = [s._order_sessionID] := by
  rw [targetsSince_append s _ [(positionsRequest env.now s.NextRequestID.1 a, s._order_sessionID)]]
  · rfl
  · simp [FIXApp.GetPositions.step, FIXApp.sendToTarget, NextRequestID_sent,
      NextRequestID_order_sessionID]

theorem MarketOrder_step_targets (env : Env) (s : FIXApp) (a : String) :
    targetsSince s (FIXApp.MarketOrder.step env s a) = [s._order_sessionID] := by
  rw [targetsSince_append s _ [(newOrderSingle env.now s.NextRequestID.1 a, s._order_sessionID)]]
  · rfl
  · simp [FIXApp.MarketOrder.step, FIXApp.sendToTarget, NextRequestID_sent,
      NextRequestID_order_sessionID]

/-! ## C5 -/

/-- C5 (counterexample): on a fresh `FIXApp`, where no session has logged on, `GetTradingStatus`
hands its request to the send primitive, addressed to the default-constructed session id (the
engine answers with `SessionNotFound`), and so does the `GetTradingStatus` issued inside
`onLogon` of the market-data session of `exampleEnv` before any order session has logged on; and
`GetPositions` and `MarketOrder`, with no account recorded, return without an exception, so
their caller is told of no failure. -/
theorem C5_counterexample_handed_to_send_primitive :
    requestsSince FIXApp.new (exampleEngine.GetTradingStatus FIXApp.new).1
      = [tradingSessionStatusRequest "2"]
    ∧ targetsSince FIXApp.new (exampleEngine.GetTradingStatus FIXApp.new).1 = [({} : SessionID)]
    ∧ (exampleEngine.GetTradingStatus FIXApp.new).2 = some .SessionNotFound
    ∧ targetsSince FIXApp.new (FIXApp.new.onLogon exampleEngine exampleEnv marketSession).1
      = [({} : SessionID)]
    ∧ exampleEngine.GetPositions exampleEnv FIXApp.new = (FIXApp.new, none)
    ∧ exampleEngine.MarketOrder exampleEnv FIXApp.new = (FIXApp.new, none) := by
  decide

/-- C5 (amended): `FIXApp` makes no routing check of its own; the failure comes from the engine.
Let `s` be the state after any sequence of logons, logouts, collateral reports and commands from
a fresh `FIXApp`, run against an engine that has no session with the default-constructed id. If
no session marked order has logged on, `GetTradingStatus` and `GetAccounts` each hand their
request to the send primitive addressed to the default-constructed id and are ended by
`SessionNotFound`; `GetPositions` and `MarketOrder` do so for the first recorded account, which
ends them, and with no recorded account they hand over nothing and raise nothing; and `onLogon`
of a market-data session hands over its trading-status request the same way and is ended by
`SessionNotFound` before an order session is stored. If no session marked market-data has logged
on, `SubscribeMarketData` and `UnsubscribeMarketData` hand their request over addressed to the
default-constructed id and are ended by `SessionNotFound`. -/
theorem C5_commands_rejected_by_engine_only (engine : Engine) (env : Env)
    (events : List AppEvent) (s : FIXApp)
    (hdefault : engine.lookupSession {} = false)
    (hs : s = engine.run env FIXApp.new events) :
    ((∀ sessionID ∈ logonsOf events, marksOrder env sessionID = false) →
      engine.GetTradingStatus s = (s.GetTradingStatus, some .SessionNotFound)
      ∧ targetsSince s s.GetTradingStatus = [({} : SessionID)]
      ∧ engine.GetAccounts s = (s.GetAccounts, some .SessionNotFound)
      ∧ targetsSince s s.GetAccounts = [({} : SessionID)]
      ∧ (∀ (accountID : String) (rest : List String), s._list_accountID = accountID :: rest →
          engine.GetPositions env s
            = (FIXApp.GetPositions.step env s accountID, some .SessionNotFound)
          ∧ targetsSince s (FIXApp.GetPositions.step env s accountID) = [({} : SessionID)]
          ∧ engine.MarketOrder env s
            = (FIXApp.MarketOrder.step env s accountID, some .SessionNotFound)
          ∧ targetsSince s (FIXApp.MarketOrder.step env s accountID) = [({} : SessionID)])
      ∧ (s._list_accountID = [] →
          engine.GetPositions env s = (s, none) ∧ engine.MarketOrder env s = (s, none))
      ∧ (∀ sessionID : SessionID, marksMarketData env sessionID = true →
          (s.onLogon engine env sessionID).2 = some .SessionNotFound
          ∧ targetsSince s (s.onLogon engine env sessionID).1 = [({} : SessionID)]
          ∧ (s.onLogon engine env sessionID).1._order_sessionID = ({} : SessionID)))
    ∧ ((∀ sessionID ∈ logonsOf events, marksMarketData env sessionID = false) →
      engine.SubscribeMarketData s = (s.SubscribeMarketData, some .SessionNotFound)
      ∧ targetsSince s s.SubscribeMarketData = [({} : SessionID)]
      ∧ engine.UnsubscribeMarketData s = (s.UnsubscribeMarketData, some .SessionNotFound)
      ∧ targetsSince s s.UnsubscribeMarketData = [({} : SessionID)]) := by
  obtain ⟨h1, h2, _, _, h5, h6⟩ := command_targets env s
  refine ⟨?_, ?_⟩
  · intro hno
    have ho : s._order_sessionID = ({} : SessionID) := by
      rw [hs, run_order_sessionID_of_none engine env events FIXApp.new hno]
      rfl
    have hl : engine.lookupSession s._order_sessionID = false := by rw [ho]; exact hdefault
    rw [ho] at h1 h2
    refine ⟨by rw [engine_GetTradingStatus, hl]; rfl, h1, by rw [engine_GetAccounts, hl]; rfl, h2,
      ?_, ?_, ?_⟩
    · intro accountID rest hacc
      refine ⟨?_, by rw [GetPositions_step_targets, ho], ?_,
        by rw [MarketOrder_step_targets, ho]⟩
      · rw [Engine.GetPositions, hacc, engine_GetPositions_loop_cons, hl]
        rfl
      · rw [Engine.MarketOrder, hacc, engine_MarketOrder_loop_cons, hl]
        rfl
    · intro hacc
      exact ⟨by rw [Engine.GetPositions, hacc]; rfl, by rw [Engine.MarketOrder, hacc]; rfl⟩
    · intro sessionID hm
      refine ⟨by rw [onLogon_market_unknown engine env s sessionID hm hl], ?_, ?_⟩
      · rw [onLogon_market_targets engine env s sessionID hm, ho]
      · rw [onLogon_market_unknown engine env s sessionID hm hl, GetTradingStatus_eq]
        exact ho
  · intro hno
    have hm : s._market_sessionID = ({} : SessionID) := by
      rw [hs, run_market_sessionID, lastLogon_eq_none _ _ hno]
      rfl
    have hl : engine.lookupSession s._market_sessionID = false := by rw [hm]; exact hdefault
    rw [hm] at h5 h6
    exact ⟨by rw [engine_SubscribeMarketData, hl]; rfl, h5,
      by rw [engine_UnsubscribeMarketData, hl]; rfl, h6⟩

/-- Witness of C5 (amended): the market-data session of `exampleEnv` has logged on and the
accounts `A` and `B` are recorded, no order session has logged on; `GetPositions` hands the
request for `A` to the send primitive, addressed to the default-constructed session id, and is
ended by `SessionNotFound`. -/
theorem C5_commands_rejected_by_engine_only_witness :
    exampleEngine.lookupSession {} = false
    ∧ (∀ sessionID ∈ logonsOf eventsWithoutOrderLogon, marksOrder exampleEnv sessionID = false)
    ∧ (exampleEngine.run exampleEnv FIXApp.new eventsWithoutOrderLogon)._list_accountID
        = ["A", "B"]
    ∧ exampleEngine.GetPositions exampleEnv
          (exampleEngine.run exampleEnv FIXApp.new eventsWithoutOrderLogon)
        = (FIXApp.GetPositions.step exampleEnv
            (exampleEngine.run exampleEnv FIXApp.new eventsWithoutOrderLogon) "A",
          some .SessionNotFound)
    ∧ targetsSince (exampleEngine.run exampleEnv FIXApp.new eventsWithoutOrderLogon)
        (FIXApp.GetPositions.step exampleEnv
          (exampleEngine.run exampleEnv FIXApp.new eventsWithoutOrderLogon) "A")
        = [({} : SessionID)] :=
  ⟨by decide, by decide, by decide,
   (((C5_commands_rejected_by_engine_only exampleEngine exampleEnv eventsWithoutOrderLogon _
      (by decide) rfl).1 (by decide)).2.2.2.2.1 "A" ["B"] (by decide)).1,
   (((C5_commands_rejected_by_engine_only exampleEngine exampleEnv eventsWithoutOrderLogon _
      (by decide) rfl).1 (by decide)).2.2.2.2.1 "A" ["B"] (by decide)).2.1⟩

/-! ## Lemmas: request identifiers -/

theorem Fields.lookup_setField_ne (fm : Fields) (f g : Field) (w : String) (h : f ≠ g) :
    List.lookup f (Fields.setField fm g w) = List.lookup f fm := by
  induction fm with
  | nil =>
    have h' : (f == g) = false := by simpa using h
    simp [Fields.setField, List.lookup, h']
  | cons p rest ih =>
    obtain ⟨k, v⟩ := p
    rw [Fields.setField_cons]
    by_cases hk : k = g
    · subst hk
      have h' : (f == k) = false := by simpa using h
      simp only [if_true, List.lookup, h']
      have hmap : ∀ l : Fields, List.lookup f
          (l.map (fun q => if q.1 == k then (k, w) else q)) = List.lookup f l := by
        intro l
        induction l with
        | nil => rfl
        | cons q t iht =>
          obtain ⟨a, b⟩ := q
          by_cases ha : a = k
          · subst ha
            have hm : List.map (fun q : Field × String => if q.1 == a then (a, w) else q)
                ((a, b) :: t) =
                (a, w) :: List.map (fun q : Field × String => if q.1 == a then (a, w) else q) t := by
              simp
            rw [hm]
            simp only [List.lookup, h']
            exact iht
          · have hm : List.map (fun q : Field × String => if q.1 == k then (k, w) else q)
                ((a, b) :: t) =
                (a, b) :: List.map (fun q : Field × String => if q.1 == k then (k, w) else q) t := by
              simp [ha]
            rw [hm]
            simp only [List.lookup, iht]
      exact hmap rest
    · simp only [hk, if_false, List.lookup, ih]

theorem Fields.getField_setField_ne (fm : Fields) (f g : Field) (w : String) (h : f ≠ g) :
    (fm.setField g w).getField f = fm.getField f := by
  unfold Fields.getField
  rw [Fields.lookup_setField_ne fm f g w h]

theorem Message.getField_body_setField (m : Message) (f : Field) (v : String) :
    (m.setField f v).getField f = .ok v :=
  Fields.getField_setField _ _ _

theorem Message.getField_body_setField_ne (m : Message) (f g : Field) (w : String) (h : f ≠ g) :
    (m.setField g w).getField f = m.getField f :=
  Fields.getField_setField_ne _ _ _ _ h

theorem Message.getField_addGroup_ne (m : Message) (f g : Field) (grp : Group) (h : f ≠ g) :
    (m.addGroup g grp).getField f = m.getField f :=
  Fields.getField_setField_ne _ _ _ _ h

theorem tradingSessionStatusRequest_id (id : String) :
    (tradingSessionStatusRequest id).getField .TradSesReqID = .ok id := by
  simp [tradingSessionStatusRequest, Message.getField_body_setField, Message.getField_body_setField_ne]

theorem collateralInquiry_id (id : String) :
    (collateralInquiry id).getField .CollInquiryID = .ok id := by
  simp [collateralInquiry, Message.getField_body_setField, Message.getField_body_setField_ne]

theorem positionsRequest_id (now id accountID : String) :
    (positionsRequest now id accountID).getField .PosReqID = .ok id := by
  simp [positionsRequest, Message.getField_body_setField, Message.getField_body_setField_ne,
    Message.getField_addGroup_ne]

theorem newOrderSingle_id (now id accountID : String) :
    (newOrderSingle now id accountID).getField .ClOrdID = .ok id := by
  simp [newOrderSingle, Message.getField_body_setField, Message.getField_body_setField_ne]

theorem marketDataRequest_id (t : String) :
    (marketDataRequest t).getField .MDReqID = .ok "EUR_USD_Request_" := by
  simp [marketDataRequest, Message.getField_body_setField, Message.getField_body_setField_ne,
    Message.getField_addGroup_ne]

/-! ## C6 -/

/-- C6 (counterexample): on a fresh `FIXApp` a call of `NextRequestID` would return "2" and move
the counter to 2, but the request `SubscribeMarketData` builds carries the fixed `MDReqID`
"EUR_USD_Request_" and the counter stays at 1; the same holds of `UnsubscribeMarketData`. -/
theorem C6_counterexample_market_data_request_id :
    FIXApp.new.NextRequestID.1 = "2"
    ∧ FIXApp.new.NextRequestID.2._requestID = 2
    ∧ requestsSince FIXApp.new FIXApp.new.SubscribeMarketData = [marketDataRequest "1"]
    ∧ (marketDataRequest "1").getField .MDReqID = .ok "EUR_USD_Request_"
    ∧ FIXApp.new.SubscribeMarketData._requestID = 1
    ∧ requestsSince FIXApp.new FIXApp.new.UnsubscribeMarketData = [marketDataRequest "2"]
    ∧ (marketDataRequest "2").getField .MDReqID = .ok "EUR_USD_Request_"
    ∧ FIXApp.new.UnsubscribeMarketData._requestID = 1 := by
  decide

/-- C6 (amended): `GetTradingStatus` and `GetAccounts` build one request whose identifier
(`TradSesReqID`, `CollInquiryID`) is the value returned by a call of `NextRequestID` made during
the build, and leave the counter where that one call leaves it; `GetPositions` and `MarketOrder`
do so in each iteration of their loop over the accounts (`PosReqID`, `ClOrdID`);
`SubscribeMarketData` and `UnsubscribeMarketData` build a request with the fixed `MDReqID`
"EUR_USD_Request_" and leave the counter unchanged. -/
theorem C6_request_identifiers (env : Env) (s : FIXApp) (accountID : String) :
    (requestsSince s s.GetTradingStatus = [tradingSessionStatusRequest s.NextRequestID.1]
      ∧ (tradingSessionStatusRequest s.NextRequestID.1).getField .TradSesReqID
          = .ok s.NextRequestID.1
      ∧ s.GetTradingStatus._requestID = s.NextRequestID.2._requestID)
    ∧ (requestsSince s s.GetAccounts = [collateralInquiry s.NextRequestID.1]
      ∧ (collateralInquiry s.NextRequestID.1).getField .CollInquiryID = .ok s.NextRequestID.1
      ∧ s.GetAccounts._requestID = s.NextRequestID.2._requestID)
    ∧ (requestsSince s (FIXApp.GetPositions.step env s accountID)
          = [positionsRequest env.now s.NextRequestID.1 accountID]
      ∧ (positionsRequest env.now s.NextRequestID.1 accountID).getField .PosReqID
          = .ok s.NextRequestID.1
      ∧ (FIXApp.GetPositions.step env s accountID)._requestID = s.NextRequestID.2._requestID)
    ∧ (requestsSince s (FIXApp.MarketOrder.step env s accountID)
          = [newOrderSingle env.now s.NextRequestID.1 accountID]
      ∧ (newOrderSingle env.now s.NextRequestID.1 accountID).getField .ClOrdID
          = .ok s.NextRequestID.1
      ∧ (FIXApp.MarketOrder.step env s accountID)._requestID = s.NextRequestID.2._requestID)
    ∧ (requestsSince s s.SubscribeMarketData = [marketDataRequest "1"]
      ∧ (marketDataRequest "1").getField .MDReqID = .ok "EUR_USD_Request_"
      ∧ s.SubscribeMarketData._requestID = s._requestID)
    ∧ (requestsSince s s.UnsubscribeMarketData = [marketDataRequest "2"]
      ∧ (marketDataRequest "2").getField .MDReqID = .ok "EUR_USD_Request_"
      ∧ s.UnsubscribeMarketData._requestID = s._requestID) := by
  refine ⟨⟨?_, tradingSessionStatusRequest_id _, rfl⟩, ⟨?_, collateralInquiry_id _, rfl⟩,
    ⟨?_, positionsRequest_id _ _ _, rfl⟩, ⟨?_, newOrderSingle_id _ _ _, rfl⟩,
    ⟨?_, marketDataRequest_id _, rfl⟩, ⟨?_, marketDataRequest_id _, rfl⟩⟩
  · rw [requestsSince_append s _ [(tradingSessionStatusRequest s.NextRequestID.1,
      s._order_sessionID)]]
    · rfl
    · simp [FIXApp.GetTradingStatus, FIXApp.sendToTarget, NextRequestID_sent,
        NextRequestID_order_sessionID]
  · rw [requestsSince_append s _ [(collateralInquiry s.NextRequestID.1, s._order_sessionID)]]
    · rfl
    · simp [FIXApp.GetAccounts, FIXApp.sendToTarget, NextRequestID_sent,
        NextRequestID_order_sessionID]
  · rw [requestsSince_append s _ [(positionsRequest env.now s.NextRequestID.1 accountID,
      s._order_sessionID)]]
    · rfl
    · simp [FIXApp.GetPositions.step, FIXApp.sendToTarget, NextRequestID_sent,
        NextRequestID_order_sessionID]
  · rw [requestsSince_append s _ [(newOrderSingle env.now s.NextRequestID.1 accountID,
      s._order_sessionID)]]
    · rfl
    · simp [FIXApp.MarketOrder.step, FIXApp.sendToTarget, NextRequestID_sent,
        NextRequestID_order_sessionID]
  · rw [requestsSince_append s _ [(marketDataRequest "1", s._market_sessionID)]]
    · rfl
    · simp [SubscribeMarketData_eq, FIXApp.sendToTarget]
  · rw [requestsSince_append s _ [(marketDataRequest "2", s._market_sessionID)]]
    · rfl
    · simp [UnsubscribeMarketData_eq, FIXApp.sendToTarget]

/-! ## C7 -/

/-- C11: `getInstrument(symbol)` returns the null pointer exactly when no instrument of the list
has that symbol; otherwise it returns an instrument that is in the list and whose symbol equals
the argument, never an instrument made up for the occasion. -/
theorem C11_getInstrument_absent_or_listed (ctx : DataContext) (symbol : String) :
    (ctx.getInstrument symbol = none ↔ ∀ i ∈ ctx.m_instrument_list, i.symbol ≠ symbol)
    ∧ (∀ instrument : Instrument, ctx.getInstrument symbol = some instrument →
        instrument ∈ ctx.m_instrument_list ∧ instrument.symbol = symbol)
    ∧ ((∃ i ∈ ctx.m_instrument_list, i.symbol = symbol) →
        ∃ instrument : Instrument, ctx.getInstrument symbol = some instrument ∧
          instrument ∈ ctx.m_instrument_list ∧ instrument.symbol = symbol) := by
  have hnone : ctx.getInstrument symbol = none ↔ ∀ i ∈ ctx.m_instrument_list, i.symbol ≠ symbol := by
    unfold DataContext.getInstrument
    rw [List.find?_eq_none]
    simp
  have hsome : ∀ instrument : Instrument, ctx.getInstrument symbol = some instrument →
      instrument ∈ ctx.m_instrument_list ∧ instrument.symbol = symbol := by
    intro instrument h
    unfold DataContext.getInstrument at h
    exact ⟨List.mem_of_find?_eq_some h, by simpa using List.find?_some h⟩
  refine ⟨hnone, hsome, ?_⟩
  rintro ⟨i, hi, hsym⟩
  cases h : ctx.getInstrument symbol with
  | none => exact absurd hsym (hnone.1 h i hi)
  | some instrument => exact ⟨instrument, rfl, hsome instrument h⟩

/-- Witness of C11: with `EUR/USD` and `USD/JPY` registered, the query for `USD/JPY` gives the
registered instrument. -/
theorem C11_getInstrument_absent_or_listed_witness :
    ((DataContext.new.addInstrumentBySymbol "EUR/USD").addInstrument
        { symbol := "USD/JPY", volume := 3 }).getInstrument "USD/JPY"
      = some { symbol := "USD/JPY", volume := 3 }
    ∧ ({ symbol := "USD/JPY", volume := 3 } : Instrument) ∈
        ((DataContext.new.addInstrumentBySymbol "EUR/USD").addInstrument
          { symbol := "USD/JPY", volume := 3 }).m_instrument_list
    ∧ ({ symbol := "USD/JPY", volume := 3 } : Instrument).symbol = "USD/JPY" :=
  ⟨by decide,
   (C11_getInstrument_absent_or_listed
      ((DataContext.new.addInstrumentBySymbol "EUR/USD").addInstrument
        { symbol := "USD/JPY", volume := 3 }) "USD/JPY").2.1
      { symbol := "USD/JPY", volume := 3 } (by decide)⟩

/-! ## C12 -/

/-- C12 (counterexample): on a context with a network adapter and no instrument,
`subscribe("EUR/USD")` leaves `getInstrument("EUR/USD")` absent; and once `EUR/USD` is
registered, `unsubscribe("EUR/USD")` leaves it present. -/
theorem C12_counterexample_subscription_keeps_instruments :
    (({ m_network_ptr := some {} } : DataContext).subscribe "EUR/USD").getInstrument "EUR/USD"
      = none
    ∧ ((({ m_network_ptr := some {} } : DataContext).addInstrumentBySymbol
        "EUR/USD").unsubscribe "EUR/USD").getInstrument "EUR/USD"
      = some { symbol := "EUR/USD" } := by
  decide

/-- C12 (amended): `subscribe(symbol)` and `unsubscribe(symbol)` hand the request to the network
adapter, when there is one, and do not write the instrument list: every `getInstrument` query
answers after the call what it answered before. -/
theorem C12_subscription_forwards_to_network (ctx : DataContext) (symbol query : String) :
    (ctx.subscribe symbol).m_instrument_list = ctx.m_instrument_list
    ∧ (ctx.subscribe symbol).getInstrument query = ctx.getInstrument query
    ∧ (ctx.unsubscribe symbol).m_instrument_list = ctx.m_instrument_list
    ∧ (ctx.unsubscribe symbol).getInstrument query = ctx.getInstrument query
    ∧ (∀ adapter : NetworkAdapter, ctx.m_network_ptr = some adapter →
        (ctx.subscribe symbol).m_network_ptr =
          some { adapter with calls := adapter.calls ++ [.subscribeMarketData symbol] }
        ∧ (ctx.unsubscribe symbol).m_network_ptr =
          some { adapter with calls := adapter.calls ++ [.unsubscribeMarketData symbol] })
    ∧ (ctx.m_network_ptr = none →
        ctx.subscribe symbol = ctx ∧ ctx.unsubscribe symbol = ctx) := by
  have hlist : ∀ call : NetworkCall,
      (ctx.callNetwork call).m_instrument_list = ctx.m_instrument_list := by
    intro call
    unfold DataContext.callNetwork
    cases ctx.m_network_ptr <;> rfl
  refine ⟨hlist _, ?_, hlist _, ?_, ?_, ?_⟩
  · simp only [DataContext.getInstrument, DataContext.subscribe, hlist]
  · simp only [DataContext.getInstrument, DataContext.unsubscribe, hlist]
  · intro adapter h
    simp [DataContext.subscribe, DataContext.unsubscribe, DataContext.callNetwork, h]
  · intro h
    simp [DataContext.subscribe, DataContext.unsubscribe, DataContext.callNetwork, h]

/-- Witness of C12 (amended): a context with an adapter that has seen no call. -/
theorem C12_subscription_forwards_to_network_witness :
    ({ m_network_ptr := some {} } : DataContext).m_network_ptr = some {}
    ∧ (({ m_network_ptr := some {} } : DataContext).subscribe "EUR/USD").m_network_ptr =
        some { calls := [.subscribeMarketData "EUR/USD"] } :=
  ⟨rfl,
   ((C12_subscription_forwards_to_network ({ m_network_ptr := some {} } : DataContext)
      "EUR/USD" "EUR/USD").2.2.2.2.1 {} rfl).1⟩

/-! ## C13 -/

/-- C13: handling a logout clears nothing: `FIXApp::onLogout`, for any session, leaves the
account list, the request counter, the stored session ids (and every other member) as they were,
and `DataContext::slotExchangeLogout`, for any session name, leaves the instrument list, the
exchange settings, the order list (and every other member) as they were. -/
theorem C13_logout_keeps_state (env : Env) (s : FIXApp) (session_ID : SessionID)
    (ctx : DataContext) (session_name : String) :
    (s.onLogout env session_ID).1 = s
    ∧ (s.onLogout env session_ID).1._list_accountID = s._list_accountID
    ∧ (s.onLogout env session_ID).1._requestID = s._requestID
    ∧ (s.onLogout env session_ID).1._market_sessionID = s._market_sessionID
    ∧ (s.onLogout env session_ID).1._order_sessionID = s._order_sessionID
    ∧ ctx.slotExchangeLogout session_name = ctx
    ∧ (ctx.slotExchangeLogout session_name).m_instrument_list = ctx.m_instrument_list
    ∧ (ctx.slotExchangeLogout session_name).m_exchange_settings = ctx.m_exchange_settings
    ∧ (ctx.slotExchangeLogout session_name).m_order_list = ctx.m_order_list := by
  have h : (s.onLogout env session_ID).1 = s := by
    unfold FIXApp.onLogout
    cases IsMarketDataSession env session_ID with
    | error e => rfl
    | ok b =>
      cases IsOrderSession env session_ID with
      | error e => rfl
      | ok o => rfl
  refine ⟨h, ?_, ?_, ?_, ?_, rfl, rfl, rfl, rfl⟩ <;> rw [h]

/-! ## Lemmas: execution reports -/

theorem onMessageExecutionReport_state (s : FIXApp) (er : Message) :
    (s.onMessageExecutionReport er).1 = s := by
  unfold FIXApp.onMessageExecutionReport
  cases executionReportFields er <;> rfl

/-! ## C15 -/

/-- C15 (the code at the failing input): `createMarketOrder` for the instrument `EUR/USD`, a buy
of 1000, returns the null pointer, with and without a reference id; and so it does for every
instrument, action and quantity. -/
theorem C15_createMarketOrder_returns_null :
    DataContext.new.createMarketOrder (some { symbol := "EUR/USD" }) OrderAction.Buy
        { mantissa := 1000, exponent := 0 } = none
    ∧ DataContext.new.createMarketOrderWithRefId (some { symbol := "EUR/USD" }) "ref-1"
        OrderAction.Buy { mantissa := 1000, exponent := 0 } = none
    ∧ (∀ (ctx : DataContext) (instrument : Instrument) (ref_id : String) (action : OrderAction)
        (qty : Decimal),
        ctx.createMarketOrder (some instrument) action qty = none
        ∧ ctx.createMarketOrderWithRefId (some instrument) ref_id action qty = none) :=
  ⟨rfl, rfl, fun _ _ _ _ _ => ⟨rfl, rfl⟩⟩

/-! ## Lemmas: ticks -/

theorem find?_updateFirst_same {α : Type} (p : α → Bool) (f : α → α)
    (hf : ∀ x, p x = true → p (f x) = true) (l : List α) (x : α)
    (h : l.find? p = some x) : (updateFirst p f l).find? p = some (f x) := by
  induction l with
  | nil => simp at h
  | cons y ys ih =>
    unfold updateFirst
    by_cases hy : p y = true
    · have hx : y = x := by simpa [List.find?_cons, hy] using h
      subst hx
      simp [hy, List.find?_cons, hf y hy]
    · simp only [Bool.not_eq_true] at hy
      have h' : ys.find? p = some x := by simpa [List.find?_cons, hy] using h
      simp [hy, List.find?_cons, ih h']

theorem find?_updateFirst_other {α : Type} (p q : α → Bool) (f : α → α)
    (hq : ∀ x, p x = true → q x = false ∧ q (f x) = false) (l : List α) :
    (updateFirst p f l).find? q = l.find? q := by
  induction l with
  | nil => rfl
  | cons y ys ih =>
    unfold updateFirst
    by_cases hy : p y = true
    · obtain ⟨h1, h2⟩ := hq y hy
      simp [hy, List.find?_cons, h1, h2]
    · simp only [Bool.not_eq_true] at hy
      simp [hy, List.find?_cons, ih]

/-! ## C17 -/

/-- C17: for a tick whose symbol has a registered instrument, the tick handler adds the tick to
that instrument (the list entry `getInstrument` finds; every other symbol keeps its instrument)
and emits exactly one `onTick` signal, carrying that instrument; for a tick whose symbol has no
registered instrument it emits nothing and changes nothing. -/
theorem C17_tick_handler (ctx : DataContext) (tick : ExchangeTick) :
    (∀ instrument : Instrument, ctx.getInstrument tick.symbol = some instrument →
      (ctx.slotExchangeTick tick).emitted = ctx.emitted ++ [.onTick (instrument.addTick tick)]
      ∧ (ctx.slotExchangeTick tick).getInstrument tick.symbol = some (instrument.addTick tick)
      ∧ (instrument.addTick tick).ticks = instrument.ticks ++ [tick]
      ∧ (∀ other : String, other ≠ tick.symbol →
          (ctx.slotExchangeTick tick).getInstrument other = ctx.getInstrument other)
      ∧ (ctx.slotExchangeTick tick).m_instrument_list.length = ctx.m_instrument_list.length)
    ∧ (ctx.getInstrument tick.symbol = none → ctx.slotExchangeTick tick = ctx) := by
  refine ⟨?_, ?_⟩
  · intro instrument h
    have hstate : ctx.slotExchangeTick tick =
        { ctx with
          m_instrument_list :=
            updateFirst (fun lh => lh.symbol == tick.symbol) (fun lh => lh.addTick tick)
              ctx.m_instrument_list
          emitted := ctx.emitted ++ [.onTick (instrument.addTick tick)] } := by
      unfold DataContext.slotExchangeTick
      rw [h]
    refine ⟨by rw [hstate], ?_, rfl, ?_, ?_⟩
    · rw [hstate]
      unfold DataContext.getInstrument at h ⊢
      exact find?_updateFirst_same _ _ (fun x hx => by simpa [Instrument.addTick] using hx) _ _ h
    · intro other hother
      rw [hstate]
      unfold DataContext.getInstrument
      apply find?_updateFirst_other
      intro x hx
      have hx' : x.symbol = tick.symbol := by simpa using hx
      have hne : ¬ tick.symbol = other := fun e => hother e.symm
      simp [Instrument.addTick, hx', hne]
    · rw [hstate]
      simp only
      generalize ctx.m_instrument_list = l
      induction l with
      | nil => rfl
      | cons y ys ih =>
        unfold updateFirst
        split_ifs <;> simp [ih]
  · intro h
    unfold DataContext.slotExchangeTick
    rw [h]

/-- Witness of C17: with `EUR/USD` and `USD/JPY` registered, a tick for `USD/JPY` is added to
that instrument and one `onTick` is emitted with it. -/
theorem C17_tick_handler_witness :
    ((DataContext.new.addInstrumentBySymbol "EUR/USD").addInstrumentBySymbol
        "USD/JPY").getInstrument "USD/JPY" = some { symbol := "USD/JPY" }
    ∧ (((DataContext.new.addInstrumentBySymbol "EUR/USD").addInstrumentBySymbol
        "USD/JPY").slotExchangeTick { symbol := "USD/JPY" }).emitted
      = [.onTick { symbol := "USD/JPY", ticks := [{ symbol := "USD/JPY" }] }] :=
  ⟨by decide,
   ((C17_tick_handler
      ((DataContext.new.addInstrumentBySymbol "EUR/USD").addInstrumentBySymbol "USD/JPY")
      { symbol := "USD/JPY" }).1 { symbol := "USD/JPY" } (by decide)).1⟩



/-! ## Lemmas: consecutive request identifiers -/

/-- C19 (the code at the failing input): for the snapshot of `EUR/USD` with the two entries
bid 1.1 and ask 1.2 (`NoMDEntries` 2) the handler reports bid 1.1 and ask 0, where the last
entry of type "1" among all entries has the price 1.2: the loop stops before the last entry.
With the single entry bid 1.1 it reports bid 0. With a third entry after bid and ask, it
reports both. -/
theorem C19_snapshot_handler_skips_last_entry :
    onMessageMarketDataSnapshotFullRefresh
        (marketDataSnapshot "EUR/USD" [("0", "1.1"), ("1", "1.2")])
      = .ok ("EUR/USD", { mantissa := 11, exponent := 1 }, Decimal.zero)
    ∧ lastPriceOfType "0" [("0", "1.1"), ("1", "1.2")] = { mantissa := 11, exponent := 1 }
    ∧ lastPriceOfType "1" [("0", "1.1"), ("1", "1.2")] = { mantissa := 12, exponent := 1 }
    ∧ onMessageMarketDataSnapshotFullRefresh (marketDataSnapshot "EUR/USD" [("0", "1.1")])
      = .ok ("EUR/USD", Decimal.zero, Decimal.zero)
    ∧ lastPriceOfType "0" [("0", "1.1")] = { mantissa := 11, exponent := 1 }
    ∧ onMessageMarketDataSnapshotFullRefresh
        (marketDataSnapshot "EUR/USD" [("0", "1.1"), ("1", "1.2"), ("7", "1.3")])
      = .ok ("EUR/USD", { mantissa := 11, exponent := 1 }, { mantissa := 12, exponent := 1 }) := by
  decide

/-! ## C20 -/

/-- C20: the request `UnsubscribeMarketData` builds is the one `SubscribeMarketData` builds with
`SubscriptionRequestType` set to "2" instead of "1": header, groups and every other body field
are the same, among them `MDReqID` "EUR_USD_Request_", `MarketDepth` 0, the symbol group with
`EUR/USD` and the four MD entry types 0, 1, 7, 8 in this order; and both requests are addressed
to the stored market-data session. -/
theorem C20_unsubscribe_mirrors_subscribe (s : FIXApp) :
    (requestsSince s s.SubscribeMarketData = [subscribeMarketDataRequest]
      ∧ requestsSince s s.UnsubscribeMarketData = [unsubscribeMarketDataRequest]
      ∧ targetsSince s s.SubscribeMarketData = [s._market_sessionID]
      ∧ targetsSince s s.UnsubscribeMarketData = [s._market_sessionID])
    ∧ (unsubscribeMarketDataRequest =
        subscribeMarketDataRequest.setField .SubscriptionRequestType "2"
      ∧ subscribeMarketDataRequest.getField .SubscriptionRequestType = .ok "1"
      ∧ unsubscribeMarketDataRequest.getField .SubscriptionRequestType = .ok "2")
    ∧ (unsubscribeMarketDataRequest.header = subscribeMarketDataRequest.header
      ∧ unsubscribeMarketDataRequest.groups = subscribeMarketDataRequest.groups
      ∧ ∀ f : Field, f ≠ Field.SubscriptionRequestType →
          unsubscribeMarketDataRequest.getField f = subscribeMarketDataRequest.getField f)
    ∧ (subscribeMarketDataRequest.getField .MDReqID = .ok "EUR_USD_Request_"
      ∧ unsubscribeMarketDataRequest.getField .MDReqID = .ok "EUR_USD_Request_"
      ∧ subscribeMarketDataRequest.getField .MarketDepth = .ok "0"
      ∧ unsubscribeMarketDataRequest.getField .MarketDepth = .ok "0")
    ∧ (subscribeMarketDataRequest.getGroup 1 .NoRelatedSym
          = .ok { fields := [(.Symbol, "EUR/USD")], subGroups := [] }
      ∧ unsubscribeMarketDataRequest.getGroup 1 .NoRelatedSym
          = .ok { fields := [(.Symbol, "EUR/USD")], subGroups := [] })
    ∧ (mdEntryTypes subscribeMarketDataRequest = [.ok "0", .ok "1", .ok "7", .ok "8"]
      ∧ mdEntryTypes unsubscribeMarketDataRequest = [.ok "0", .ok "1", .ok "7", .ok "8"]) := by
  refine ⟨⟨?_, ?_, (command_targets exampleEnv s).2.2.2.2.1, (command_targets exampleEnv s).2.2.2.2.2⟩,
    ⟨by decide, by decide, by decide⟩, ⟨by decide, by decide, ?_⟩,
    ⟨by decide, by decide, by decide, by decide⟩, ⟨by decide, by decide⟩,
    ⟨by decide, by decide⟩⟩
  · rw [requestsSince_append s _ [(subscribeMarketDataRequest, s._market_sessionID)]]
    · rfl
    · simp [FIXApp.SubscribeMarketData, FIXApp.sendToTarget]
  · rw [requestsSince_append s _ [(unsubscribeMarketDataRequest, s._market_sessionID)]]
    · rfl
    · simp [FIXApp.UnsubscribeMarketData, FIXApp.sendToTarget]
  · intro f hf
    cases f <;> first | exact absurd rfl hf | decide

/-- Witness of C20: a body field other than `SubscriptionRequestType`, here `NoMDEntryTypes`, is
the same in both requests. -/
theorem C20_unsubscribe_mirrors_subscribe_witness :
    Field.NoMDEntryTypes ≠ Field.SubscriptionRequestType
    ∧ unsubscribeMarketDataRequest.getField .NoMDEntryTypes
        = subscribeMarketDataRequest.getField .NoMDEntryTypes :=
  ⟨by decide,
   (C20_unsubscribe_mirrors_subscribe FIXApp.new).2.2.1.2.2 Field.NoMDEntryTypes (by decide)⟩



/-! ## C21 -/

/-- C21: `toAdmin` sets the `Username` and `Password` fields to the configured values when the
message type is Logon ("A") and leaves every other body field and the groups as they were; for
an administrative message of any other type it adds no credentials: the body fields and the
groups are unchanged and the header changes in `TargetSubID` only (it is set to the configured
value, or, when that is not configured, the message is left as it was). -/
theorem C21_toAdmin_credentials_on_logon_only (env : Env) (message : Message)
    (msg_type : String) (htype : message.header.getField .MsgType = .ok msg_type) :
    (msg_type = "A" →
      ∀ str_username str_password : String,
        env.defaults.getString "Username" = .ok str_username →
        env.defaults.getString "Password" = .ok str_password →
        (toAdmin env message).1.getField .Username = .ok str_username
        ∧ (toAdmin env message).1.getField .Password = .ok str_password
        ∧ (∀ f : Field, f ≠ Field.Username → f ≠ Field.Password →
            (toAdmin env message).1.getField f = message.getField f)
        ∧ (toAdmin env message).1.groups = message.groups)
    ∧ (msg_type ≠ "A" →
      (toAdmin env message).1.fields = message.fields
      ∧ (toAdmin env message).1.groups = message.groups
      ∧ (∀ f : Field, f ≠ Field.TargetSubID →
          (toAdmin env message).1.header.getField f = message.header.getField f)
      ∧ (∀ sub_ID : String, env.defaults.getString "TargetSubID" = .ok sub_ID →
          (toAdmin env message).1 =
            { message with header := message.header.setField .TargetSubID sub_ID })
      ∧ (env.defaults.has "TargetSubID" = false → (toAdmin env message).1 = message)) := by
  refine ⟨?_, ?_⟩
  · intro hA u pw hu hp
    subst hA
    have hbody : (toAdmin env message).1.fields =
        ((message.setField .Username u).setField .Password pw).fields
        ∧ (toAdmin env message).1.groups = message.groups := by
      unfold toAdmin
      simp only [htype, beq_self_eq_true, if_true, hu, hp]
      cases env.defaults.getString "TargetSubID" <;> exact ⟨rfl, rfl⟩
    obtain ⟨hf, hg⟩ := hbody
    refine ⟨?_, ?_, ?_, hg⟩
    · unfold Message.getField
      rw [hf]
      show ((message.setField .Username u).setField .Password pw).getField .Username = .ok u
      rw [Message.getField_body_setField_ne _ _ _ _ (by decide),
        Message.getField_body_setField]
    · unfold Message.getField
      rw [hf]
      exact Fields.getField_setField _ _ _
    · intro f h1 h2
      unfold Message.getField
      rw [hf]
      show ((message.setField .Username u).setField .Password pw).getField f = message.getField f
      rw [Message.getField_body_setField_ne _ _ _ _ h2,
        Message.getField_body_setField_ne _ _ _ _ h1]
  · intro hA
    have hstate : (toAdmin env message).1 =
        match env.defaults.getString "TargetSubID" with
        | .error _ => message
        | .ok sub_ID => { message with header := message.header.setField .TargetSubID sub_ID } := by
      unfold toAdmin
      simp only [htype, beq_iff_eq, hA, if_false]
      cases env.defaults.getString "TargetSubID" <;> rfl
    refine ⟨?_, ?_, ?_, ?_, ?_⟩
    · rw [hstate]; cases env.defaults.getString "TargetSubID" <;> rfl
    · rw [hstate]; cases env.defaults.getString "TargetSubID" <;> rfl
    · intro f hf
      rw [hstate]
      cases env.defaults.getString "TargetSubID" with
      | error e => rfl
      | ok sub_ID => exact Fields.getField_setField_ne _ _ _ _ hf
    · intro sub_ID hsub
      rw [hstate, hsub]
    · intro hno
      rw [hstate]
      have : env.defaults.getString "TargetSubID" = .error (.ConfigError "TargetSubID") := by
        unfold Dictionary.has at hno
        unfold Dictionary.getString
        cases h : List.lookup "TargetSubID" env.defaults with
        | none => rfl
        | some v => simp [h] at hno
      rw [this]

/-- Witness of C21: a Heartbeat (type "0") that carries a body field gets `TargetSubID` in its
header and keeps its body, while a Logon gets the configured credentials. -/
theorem C21_toAdmin_credentials_on_logon_only_witness :
    ("0" : String) ≠ "A"
    ∧ (toAdmin exampleEnv
        { header := [(.MsgType, "0")], fields := [(.Text, "t")], groups := [] }).1.fields
        = [(.Text, "t")]
    ∧ (toAdmin exampleEnv (Message.new "A")).1.getField .Username = .ok "u" :=
  ⟨by decide,
   ((C21_toAdmin_credentials_on_logon_only exampleEnv
      { header := [(.MsgType, "0")], fields := [(.Text, "t")], groups := [] } "0"
      (by decide)).2 (by decide)).1,
   ((C21_toAdmin_credentials_on_logon_only exampleEnv (Message.new "A") "A"
      (by decide)).1 rfl "u" "p" (by decide) (by decide)).1⟩



/-! ## Lemmas: the k-th request identifier -/

theorem convert_toSignedInt_eq_toString (m : Nat) (h : m < 2 ^ 31) :
    IntConvertor.convert (toSignedInt m) = toString m := by
  unfold toSignedInt IntConvertor.convert
  have h1 : m % 2 ^ 32 = m := Nat.mod_eq_of_lt (by omega)
  rw [h1, if_pos h]
  rfl

theorem requestIDOfCall_eq (k : Nat) :
    requestIDOfCall (k + 1) = toString (k % 65534 + 2) := by
  unfold requestIDOfCall
  rw [Nat.add_sub_cancel, afterCalls_succ_fst]
  have hlt : k % 65534 < 65534 := Nat.mod_lt _ (by norm_num)
  exact convert_toSignedInt_eq_toString _ (by omega)

theorem toString_nat_injective {a b : Nat} (h : toString a = toString b) : a = b :=
  Nat_repr_injective h

/-! ## C22 -/

/-- C22: on a fresh `FIXApp` the `k`-th call of `NextRequestID` (`k ≥ 1`) returns the decimal
string of `((k - 1) mod 65534) + 2`; so every identifier is a number from 2 to 65535, "1" is
never returned, the identifiers of any 65534 consecutive calls are pairwise distinct, and two
calls exactly 65534 apart return the same identifier. -/
theorem C22_kth_request_identifier (k : Nat) (hk : 1 ≤ k) :
    requestIDOfCall k = toString ((k - 1) % 65534 + 2)
    ∧ (2 ≤ (k - 1) % 65534 + 2 ∧ (k - 1) % 65534 + 2 ≤ 65535)
    ∧ requestIDOfCall k ≠ "1"
    ∧ (∀ j : Nat, k < j → j < k + 65534 → requestIDOfCall k ≠ requestIDOfCall j)
    ∧ requestIDOfCall (k + 65534) = requestIDOfCall k := by
  obtain ⟨n, rfl⟩ : ∃ n, k = n + 1 := ⟨k - 1, by omega⟩
  have hlt : n % 65534 < 65534 := Nat.mod_lt _ (by norm_num)
  refine ⟨?_, ⟨by omega, by omega⟩, ?_, ?_, ?_⟩
  · rw [requestIDOfCall_eq, Nat.add_sub_cancel]
  · rw [requestIDOfCall_eq]
    intro h
    have h1 : toString (n % 65534 + 2) = toString 1 := h
    have := toString_nat_injective h1
    omega
  · intro j h1 h2
    obtain ⟨m, rfl⟩ : ∃ m, j = m + 1 := ⟨j - 1, by omega⟩
    rw [requestIDOfCall_eq, requestIDOfCall_eq]
    intro h
    have := toString_nat_injective h
    omega
  · have e : n + 1 + 65534 = (n + 65534) + 1 := by omega
    have hmod : (n + 65534) % 65534 = n % 65534 := by omega
    rw [e, requestIDOfCall_eq, requestIDOfCall_eq, hmod]

/-- Witness of C22: the first call returns "2", and so does the 65535th. -/
theorem C22_kth_request_identifier_witness :
    1 ≤ 1
    ∧ requestIDOfCall 1 = "2"
    ∧ requestIDOfCall (1 + 65534) = requestIDOfCall 1 :=
  ⟨by decide, by decide,
   (C22_kth_request_identifier 1 (by decide)).2.2.2.2⟩

/-! ## Lemmas: exchange settings -/

theorem lookup_append_singleton (m : List (String × String)) (k a b : String) :
    List.lookup k (m ++ [(a, b)]) =
      match List.lookup k m with
      | some v => some v
      | none => if k == a then some b else none := by
  induction m with
  | nil =>
    by_cases h : (k == a) = true
    · simp [List.lookup, h]
    · simp only [Bool.not_eq_true] at h
      simp [List.lookup, h]
  | cons p rest ih =>
    obtain ⟨x, y⟩ := p
    by_cases h : (k == x) = true
    · simp [List.lookup, h]
    · simp only [Bool.not_eq_true] at h
      simp only [List.cons_append, List.lookup, h]
      exact ih

theorem lookup_emplace (m : List (String × String)) (k a b : String) :
    List.lookup k (emplace m a b) =
      match List.lookup k m with
      | some v => some v
      | none => if k == a then some b else none := by
  unfold emplace
  cases ha : List.lookup a m with
  | none => exact lookup_append_singleton m k a b
  | some w =>
    cases hk : List.lookup k m with
    | some v => rfl
    | none =>
      by_cases h : (k == a) = true
      · have : k = a := by simpa using h
        rw [this, ha] at hk
        cases hk
      · simp only [Bool.not_eq_true] at h
        simp [h]

theorem lookup_foldl_emplace (entries : List (String × String)) (k : String) :
    ∀ m : List (String × String),
      List.lookup k (entries.foldl (fun m setting => emplace m setting.1 setting.2) m) =
        match List.lookup k m with
        | some v => some v
        | none => List.lookup k entries := by
  induction entries with
  | nil => intro m; cases h : List.lookup k m <;> simp [h]
  | cons e rest ih =>
    intro m
    obtain ⟨a, b⟩ := e
    rw [List.foldl_cons, ih, lookup_emplace]
    cases hk : List.lookup k m with
    | some v => rfl
    | none =>
      by_cases h : (k == a) = true
      · simp [List.lookup, h]
      · simp only [Bool.not_eq_true] at h
        simp [List.lookup, h]

theorem lookup_onSettingsEvent (ctx : DataContext) (event : SettingsEvent) (k : String) :
    List.lookup k (ctx.onSettingsEvent event).m_exchange_settings =
      match List.lookup k ctx.m_exchange_settings with
      | some v => some v
      | none => List.lookup k event.entries := by
  cases event <;> exact lookup_foldl_emplace _ k _

theorem lookup_foldl_onSettingsEvent (events : List SettingsEvent) (k : String) :
    ∀ ctx : DataContext,
      List.lookup k (events.foldl DataContext.onSettingsEvent ctx).m_exchange_settings =
        match List.lookup k ctx.m_exchange_settings with
        | some v => some v
        | none => events.findSome? (fun event => List.lookup k event.entries) := by
  induction events with
  | nil => intro ctx; cases h : List.lookup k ctx.m_exchange_settings <;> simp [h]
  | cons e rest ih =>
    intro ctx
    rw [List.foldl_cons, ih, lookup_onSettingsEvent]
    cases hk : List.lookup k ctx.m_exchange_settings with
    | some v => rfl
    | none =>
      cases he : List.lookup k e.entries with
      | some v => simp [List.findSome?, he]
      | none => simp [List.findSome?, he]

theorem findSome?_first_event (key : String) (pre : List SettingsEvent) (event : SettingsEvent)
    (post : List SettingsEvent) (value : String)
    (hpre : ∀ e ∈ pre, List.lookup key e.entries = none)
    (hevent : List.lookup key event.entries = some value) :
    (pre ++ event :: post).findSome? (fun e => List.lookup key e.entries) = some value := by
  induction pre with
  | nil => simp [List.findSome?, hevent]
  | cons e rest ih =>
    have he : List.lookup key e.entries = none := hpre e (List.mem_cons_self _ _)
    have hrest := ih (fun x hx => hpre x (List.mem_cons_of_mem _ hx))
    simp only [List.cons_append, List.findSome?, he]
    exact hrest

/-! ## C23 -/

/-- C23: exchange settings are first-write-wins. After any sequence of settings and
collateral-settings events on a fresh context, the stored value of a key is the value given by
the first event that contains the key (and the key is not stored when no event contains it); an
event never changes the value of a key that is already stored; and so a stored key is never
removed, whatever events follow. -/
theorem C23_exchange_settings_first_write_wins (events : List SettingsEvent) (key : String) :
    List.lookup key (events.foldl DataContext.onSettingsEvent DataContext.new).m_exchange_settings
      = events.findSome? (fun event => List.lookup key event.entries)
    ∧ (∀ (pre : List SettingsEvent) (event : SettingsEvent) (post : List SettingsEvent)
        (value : String), events = pre ++ event :: post →
        (∀ e ∈ pre, List.lookup key e.entries = none) →
        List.lookup key event.entries = some value →
        List.lookup key
          (events.foldl DataContext.onSettingsEvent DataContext.new).m_exchange_settings
          = some value)
    ∧ (∀ (ctx : DataContext) (event : SettingsEvent) (value : String),
        List.lookup key ctx.m_exchange_settings = some value →
        List.lookup key (ctx.onSettingsEvent event).m_exchange_settings = some value)
    ∧ (∀ (ctx : DataContext) (value : String),
        List.lookup key ctx.m_exchange_settings = some value →
        List.lookup key (events.foldl DataContext.onSettingsEvent ctx).m_exchange_settings
          = some value) := by
  have hfresh : List.lookup key
      (events.foldl DataContext.onSettingsEvent DataContext.new).m_exchange_settings
      = events.findSome? (fun event => List.lookup key event.entries) := by
    rw [lookup_foldl_onSettingsEvent]
    rfl
  refine ⟨hfresh, ?_, ?_, ?_⟩
  · intro pre event post value hsplit hpre hevent
    rw [hfresh, hsplit]
    exact findSome?_first_event key pre event post value hpre hevent
  · intro ctx event value h
    rw [lookup_onSettingsEvent, h]
  · intro ctx value h
    rw [lookup_foldl_onSettingsEvent, h]

/-- Witness of C23: settings bring `BASE_CRNCY=USD`, later collateral settings bring
`BASE_CRNCY=EUR` and `SUPPORTS_HEDGING=Y`; the stored base currency stays `USD`. -/
theorem C23_exchange_settings_first_write_wins_witness :
    List.lookup "BASE_CRNCY"
        (DataContext.new.onSettingsEvent
          (.settings [("BASE_CRNCY", "USD")])).m_exchange_settings = some "USD"
    ∧ List.lookup "BASE_CRNCY"
        ((DataContext.new.onSettingsEvent
          (.settings [("BASE_CRNCY", "USD")])).onSettingsEvent
          (.collateralSettings [("BASE_CRNCY", "EUR"), ("SUPPORTS_HEDGING", "Y")])).m_exchange_settings
        = some "USD" :=
  ⟨by decide,
   (C23_exchange_settings_first_write_wins [] "BASE_CRNCY").2.2.1
      (DataContext.new.onSettingsEvent (.settings [("BASE_CRNCY", "USD")]))
      (.collateralSettings [("BASE_CRNCY", "EUR"), ("SUPPORTS_HEDGING", "Y")]) "USD"
      (by decide)⟩

end Idefix
